import Mathlib

/-!
Verification of the LVGL builder code generator (`src/codeGenerator.ts`) and its
component registry (`src/components/lvglComponents.ts`).

The TypeScript source is embedded shallowly:
* property values (`string | number | boolean`) become `Scalar`;
* the `LvglNode` interface becomes a mutual inductive (a node together with its
  ordered forest of children);
* the component registry keeps the fields the code generator reads
  (`type`, `displayName`, `createCode`, `canHaveChildren`); palette-only UI
  metadata (icons, property editors) is not consulted by any code path studied
  here and is omitted;
* the module-global `_componentCounter` becomes an explicit `Nat` threaded
  through the emission functions, with `generateCode` taking the incoming
  global counter as an argument and resetting it, exactly as the source does;
* XML text parsing is performed by the external `fast-xml-parser` package,
  which is not part of this repository; it is modelled from the spec (see
  `parseAttrs`, `parseElem`, `parseElems`, `parseTopElems` below).  The
  repository's own `parseChildren` logic is translated directly.
-/

namespace LvglCodeGen

/-- A property value as in the TypeScript union `string | number | boolean`.
Numbers are modelled as integers (all numeric literals appearing in the
generator and registry are integral). -/
inductive Scalar where
  | str : String → Scalar
  | num : Int → Scalar
  | bool : Bool → Scalar
deriving DecidableEq, Repr

/-- The character of a decimal digit. -/
def digitChar (n : Nat) : Char := Char.ofNat (48 + n)

/-- Big-endian decimal digits of a natural number (`fuel` bounds the
recursion; `n + 1` is always enough). -/
def natDecimalAux : Nat → Nat → List Char
  | 0, _ => []
  | fuel + 1, n =>
    if n < 10 then [digitChar n]
    else natDecimalAux fuel (n / 10) ++ [digitChar (n % 10)]

/-- Decimal rendering of a natural number, as JavaScript `String(n)` would
produce for a nonnegative integer. -/
def natDecimal (n : Nat) : String := ⟨natDecimalAux (n + 1) n⟩

/-- Decimal rendering of an integer, as JavaScript `String(n)` produces for an
integral number. -/
def intDecimal : Int → String
  | .ofNat n => natDecimal n
  | .negSucc n => "-" ++ natDecimal (n + 1)

/-- JavaScript string conversion `String(value)` (also the behaviour of a
template literal `${value}`) for a scalar. -/
def jsString : Scalar → String
  | .str s => s
  | .num n => intDecimal n
  | .bool b => if b then "true" else "false"

/-- JavaScript truthiness of a scalar: the empty string, the number `0` and
`false` are falsy, everything else is truthy. -/
def truthy : Scalar → Bool
  | .str s => !(s = "")
  | .num n => !(n = 0)
  | .bool b => b

mutual
/-- A widget node, as the TypeScript interface `LvglNode`
(`id`, `type`, `name`, `properties`, `children`).  Properties are an
insertion-ordered association list, children an ordered forest. -/
inductive LvglNode where
  | mk : String → String → String → List (String × Scalar) → LvglForest → LvglNode
/-- An ordered forest of widget nodes (a `LvglNode[]` value). -/
inductive LvglForest where
  | nil : LvglForest
  | cons : LvglNode → LvglForest → LvglForest
end

/-- The `id` field of a node. -/
def LvglNode.id : LvglNode → String
  | .mk i _ _ _ _ => i

/-- The `type` field of a node. -/
def LvglNode.type : LvglNode → String
  | .mk _ t _ _ _ => t

/-- The `name` field of a node. -/
def LvglNode.name : LvglNode → String
  | .mk _ _ n _ _ => n

/-- The `properties` field of a node. -/
def LvglNode.properties : LvglNode → List (String × Scalar)
  | .mk _ _ _ p _ => p

/-- The `children` field of a node. -/
def LvglNode.children : LvglNode → LvglForest
  | .mk _ _ _ _ c => c

/-- Number of top-level entries of a forest. -/
def LvglForest.length : LvglForest → Nat
  | .nil => 0
  | .cons _ rest => 1 + rest.length

/-- A component-registry record; the fields of `LvglComponent` that the code
generator consults. -/
structure LvglComponent where
  type : String
  displayName : String
  canHaveChildren : Bool
  createCode : String
deriving DecidableEq, Repr

/-- The component registry `lvglComponents`, in source order. -/
def lvglComponents : List LvglComponent :=
  [ ⟨"lv_obj", "Object", true, "lv_obj_create"⟩,
    ⟨"lv_label", "Label", false, "lv_label_create"⟩,
    ⟨"lv_btn", "Button", true, "lv_btn_create"⟩,
    ⟨"lv_btnmatrix", "Button Matrix", false, "lv_btnmatrix_create"⟩,
    ⟨"lv_img", "Image", false, "lv_img_create"⟩,
    ⟨"lv_line", "Line", false, "lv_line_create"⟩,
    ⟨"lv_arc", "Arc", false, "lv_arc_create"⟩,
    ⟨"lv_bar", "Bar", false, "lv_bar_create"⟩,
    ⟨"lv_slider", "Slider", false, "lv_slider_create"⟩,
    ⟨"lv_switch", "Switch", false, "lv_switch_create"⟩,
    ⟨"lv_checkbox", "Checkbox", false, "lv_checkbox_create"⟩,
    ⟨"lv_dropdown", "Dropdown", false, "lv_dropdown_create"⟩,
    ⟨"lv_roller", "Roller", false, "lv_roller_create"⟩,
    ⟨"lv_textarea", "Textarea", false, "lv_textarea_create"⟩,
    ⟨"lv_table", "Table", false, "lv_table_create"⟩,
    ⟨"lv_chart", "Chart", false, "lv_chart_create"⟩,
    ⟨"lv_calendar", "Calendar", false, "lv_calendar_create"⟩,
    ⟨"lv_keyboard", "Keyboard", false, "lv_keyboard_create"⟩,
    ⟨"lv_list", "List", true, "lv_list_create"⟩,
    ⟨"lv_msgbox", "Message Box", false, "lv_msgbox_create"⟩,
    ⟨"lv_spinbox", "Spinbox", false, "lv_spinbox_create"⟩,
    ⟨"lv_spinner", "Spinner", false, "lv_spinner_create"⟩,
    ⟨"lv_tabview", "Tabview", true, "lv_tabview_create"⟩,
    ⟨"lv_tileview", "Tileview", true, "lv_tileview_create"⟩,
    ⟨"lv_win", "Window", true, "lv_win_create"⟩,
    ⟨"lv_animimg", "Animation Image", false, "lv_animimg_create"⟩,
    ⟨"lv_canvas", "Canvas", false, "lv_canvas_create"⟩,
    ⟨"lv_imgbtn", "Image Button", false, "lv_imgbtn_create"⟩,
    ⟨"lv_led", "LED", false, "lv_led_create"⟩,
    ⟨"lv_menu", "Menu", true, "lv_menu_create"⟩,
    ⟨"lv_scale", "Scale", false, "lv_scale_create"⟩,
    ⟨"lv_spangroup", "Span Group", false, "lv_spangroup_create"⟩,
    ⟨"lv_colorwheel", "Color Wheel", false, "lv_colorwheel_create"⟩,
    ⟨"lv_meter", "Meter", false, "lv_meter_create"⟩ ]

/-- Registry lookup `getComponentByType`. -/
def getComponentByType (t : String) : Option LvglComponent :=
  lvglComponents.find? (fun c => c.type = t)

/-- Whether `pat` occurs at the head of `text`. -/
def leadsWith : List Char → List Char → Bool
  | [], _ => true
  | _ :: _, [] => false
  | p :: ps, c :: cs => p = c && leadsWith ps cs

/-- Whether `pat` occurs as a contiguous sublist of `text`; the JavaScript
`text.includes(pat)`. -/
def listHasSub (pat : List Char) : List Char → Bool
  | [] => leadsWith pat []
  | c :: cs => leadsWith pat (c :: cs) || listHasSub pat cs

/-- The JavaScript substring test `s.includes(pat)`. -/
def strHasSub (s pat : String) : Bool := listHasSub pat.data s.data

/-- Remove the first occurrence of `lv_` from a character list; the JavaScript
`s.replace('lv_', '')` (a string pattern replaces only the first match). -/
def stripLvData : List Char → List Char
  | [] => []
  | 'l' :: 'v' :: '_' :: rest => rest
  | c :: rest => c :: stripLvData rest

/-- The JavaScript `s.replace('lv_', '')` on strings. -/
def stripLv (s : String) : String := ⟨stripLvData s.data⟩

/-- Whether a character list begins with `lv_`; the JavaScript
`s.startsWith('lv_')`. -/
def hasLvHead : List Char → Bool
  | 'l' :: 'v' :: '_' :: _ => true
  | _ => false

/-- Escape backslashes and double quotes for a C string literal, as
`value.replace(/\\/g, '\\\\').replace(/"/g, '\\"')` (the two sequential
global replacements amount to this single pass). -/
def escapeCData : List Char → List Char
  | [] => []
  | '\\' :: rest => '\\' :: '\\' :: escapeCData rest
  | '"' :: rest => '\\' :: '"' :: escapeCData rest
  | c :: rest => c :: escapeCData rest

/-- C string escaping on strings. -/
def escapeC (s : String) : String := ⟨escapeCData s.data⟩

/-- Whether a string starts with `#`; the JavaScript `value.startsWith('#')`. -/
def hasHashHead (s : String) : Bool :=
  match s.data with
  | '#' :: _ => true
  | _ => false

/-- The function `propertyToCode`: convert a property value to LVGL C code
format. -/
def propertyToCode (propName : String) (v : Scalar) : String :=
  match v with
  | .bool b => if b then "true" else "false"
  | .str s =>
    if strHasSub propName "color" && hasHashHead s then
      "lv_color_hex(0x" ++ (⟨s.data.tail⟩ : String) ++ ")"
    else
      "\"" ++ escapeC s ++ "\""
  | .num n => intDecimal n

/-- The `styleMap` table of `getStyleSetter`. -/
def styleMap : List (String × String) :=
  [ ("bg_color", "lv_obj_set_style_bg_color"),
    ("bg_opa", "lv_obj_set_style_bg_opa"),
    ("border_color", "lv_obj_set_style_border_color"),
    ("border_width", "lv_obj_set_style_border_width"),
    ("radius", "lv_obj_set_style_radius"),
    ("text_color", "lv_obj_set_style_text_color"),
    ("line_color", "lv_obj_set_style_line_color"),
    ("line_width", "lv_obj_set_style_line_width"),
    ("pad_top", "lv_obj_set_style_pad_top"),
    ("pad_bottom", "lv_obj_set_style_pad_bottom"),
    ("pad_left", "lv_obj_set_style_pad_left"),
    ("pad_right", "lv_obj_set_style_pad_right"),
    ("pad_row", "lv_obj_set_style_pad_row"),
    ("pad_column", "lv_obj_set_style_pad_column") ]

/-- Lookup in a string-to-string table with a default, as the JavaScript
`map[key] || dflt`. -/
def lookupD (m : List (String × String)) (k dflt : String) : String :=
  match m.find? (fun kv => kv.1 = k) with
  | some kv => kv.2
  | none => dflt

/-- The function `getStyleSetter`: map a style property name to its LVGL
setter, or the empty string. -/
def getStyleSetter (propName : String) : String := lookupD styleMap propName ""

/-- The `modeMap` of the `long_mode` handling for `lv_label`. -/
def labelModeMap : List (String × String) :=
  [ ("wrap", "LV_LABEL_LONG_WRAP"),
    ("dot", "LV_LABEL_LONG_DOT"),
    ("scroll", "LV_LABEL_LONG_SCROLL"),
    ("scroll_circular", "LV_LABEL_LONG_SCROLL_CIRCULAR"),
    ("clip", "LV_LABEL_LONG_CLIP") ]

/-- The `flowMap` of the `flex_flow` handling. -/
def flowMap : List (String × String) :=
  [ ("row", "LV_FLEX_FLOW_ROW"),
    ("column", "LV_FLEX_FLOW_COLUMN"),
    ("row_wrap", "LV_FLEX_FLOW_ROW_WRAP"),
    ("row_reverse", "LV_FLEX_FLOW_ROW_REVERSE"),
    ("column_reverse", "LV_FLEX_FLOW_COLUMN_REVERSE"),
    ("column_wrap", "LV_FLEX_FLOW_COLUMN_WRAP") ]

/-- The `setterMap` of the `value` handling for `lv_arc`, `lv_bar`,
`lv_slider`. -/
def absSetterMap : List (String × String) :=
  [ ("lv_arc", "lv_arc_set_value"),
    ("lv_bar", "lv_bar_set_value"),
    ("lv_slider", "lv_slider_set_value") ]

/-- One iteration of the property loop of `generateComponentCode`: the
statement emitted (possibly empty) for property `propName` with value `v` on a
node of type `ty` bound to variable `varName`. -/
def propStatement (ty varName indent propName : String) (v : Scalar) : String :=
  if propName = "x" || propName = "y" || propName = "width" || propName = "height"
      || propName = "name" then
    ""
  else
    let styleSetter := getStyleSetter propName
    if !(styleSetter = "") then
      if strHasSub propName "color" then
        indent ++ styleSetter ++ "(" ++ varName ++ ", " ++ propertyToCode propName v
          ++ ", LV_PART_MAIN);\n"
      else
        indent ++ styleSetter ++ "(" ++ varName ++ ", " ++ jsString v ++ ", LV_PART_MAIN);\n"
    else if ty = "lv_label" then
      if propName = "text" then
        indent ++ "lv_label_set_text(" ++ varName ++ ", " ++ propertyToCode propName v ++ ");\n"
      else if propName = "long_mode" then
        indent ++ "lv_label_set_long_mode(" ++ varName ++ ", "
          ++ lookupD labelModeMap (jsString v) "LV_LABEL_LONG_WRAP" ++ ");\n"
      else ""
    else if ty = "lv_btn" then ""
    else if ty = "lv_arc" || ty = "lv_bar" || ty = "lv_slider" then
      if propName = "value" then
        indent ++ lookupD absSetterMap ty "" ++ "(" ++ varName ++ ", " ++ jsString v
          ++ ", LV_ANIM_OFF);\n"
      else ""
    else if ty = "lv_switch" || ty = "lv_checkbox" then
      (if propName = "checked" && v = .bool true then
        indent ++ "lv_obj_add_state(" ++ varName ++ ", LV_STATE_CHECKED);\n"
      else "")
      ++ (if propName = "text" && ty = "lv_checkbox" then
        indent ++ "lv_checkbox_set_text(" ++ varName ++ ", " ++ propertyToCode propName v ++ ");\n"
      else "")
    else if ty = "lv_dropdown" || ty = "lv_roller" then
      if propName = "options" then
        indent ++ (if ty = "lv_dropdown" then "lv_dropdown_set_options" else "lv_roller_set_options")
          ++ "(" ++ varName ++ ", " ++ propertyToCode propName v
          ++ (if ty = "lv_roller" then ", LV_ROLLER_MODE_NORMAL" else "") ++ ");\n"
      else if propName = "selected" then
        indent ++ (if ty = "lv_dropdown" then "lv_dropdown_set_selected" else "lv_roller_set_selected")
          ++ "(" ++ varName ++ ", " ++ jsString v ++ ", LV_ANIM_OFF);\n"
      else ""
    else if ty = "lv_textarea" then
      if propName = "text" then
        indent ++ "lv_textarea_set_text(" ++ varName ++ ", " ++ propertyToCode propName v ++ ");\n"
      else if propName = "placeholder" then
        indent ++ "lv_textarea_set_placeholder_text(" ++ varName ++ ", "
          ++ propertyToCode propName v ++ ");\n"
      else if propName = "one_line" && v = .bool true then
        indent ++ "lv_textarea_set_one_line(" ++ varName ++ ", true);\n"
      else if propName = "password_mode" && v = .bool true then
        indent ++ "lv_textarea_set_password_mode(" ++ varName ++ ", true);\n"
      else ""
    else if ty = "lv_img" then
      if propName = "src" && truthy v then
        indent ++ "lv_img_set_src(" ++ varName ++ ", &" ++ jsString v ++ ");\n"
      else if propName = "zoom" then
        indent ++ "lv_img_set_zoom(" ++ varName ++ ", " ++ jsString v ++ ");\n"
      else if propName = "angle" then
        indent ++ "lv_img_set_angle(" ++ varName ++ ", " ++ jsString v ++ ");\n"
      else ""
    else if ty = "lv_spinner" then ""
    else
      if propName = "layout" then
        if v = .str "flex" then
          indent ++ "lv_obj_set_layout(" ++ varName ++ ", LV_LAYOUT_FLEX);\n"
        else if v = .str "grid" then
          indent ++ "lv_obj_set_layout(" ++ varName ++ ", LV_LAYOUT_GRID);\n"
        else ""
      else if propName = "flex_flow" then
        indent ++ "lv_obj_set_flex_flow(" ++ varName ++ ", "
          ++ lookupD flowMap (jsString v) "LV_FLEX_FLOW_ROW" ++ ");\n"
      else ""

/-- The property loop of `generateComponentCode`, over the properties in
insertion order. -/
def propsCode (ty varName indent : String) : List (String × Scalar) → String
  | [] => ""
  | (k, v) :: rest => propStatement ty varName indent k v ++ propsCode ty varName indent rest

/-- Lookup of a property with a default, as the JavaScript
`node.properties[k] ?? dflt`. -/
def getPropD (props : List (String × Scalar)) (k : String) (dflt : Scalar) : Scalar :=
  match props.find? (fun kv => kv.1 = k) with
  | some kv => kv.2
  | none => dflt

/-- The statements a known-type node emits for itself (optional comment,
construction, position, size, property statements), before the trailing blank
separator and the children. -/
def nodeOwnCode (componentDef : LvglComponent) (node : LvglNode)
    (parentVar indent : String) (generateComments : Bool) (varName : String) : String :=
  (if generateComments then
    indent ++ "/* Create " ++ componentDef.displayName ++ ": " ++ varName ++ " */\n"
  else "")
  ++ indent ++ "lv_obj_t *" ++ varName ++ " = " ++ componentDef.createCode ++ "("
    ++ parentVar ++ ");\n"
  ++ indent ++ "lv_obj_set_pos(" ++ varName ++ ", "
    ++ jsString (getPropD node.properties "x" (.num 0)) ++ ", "
    ++ jsString (getPropD node.properties "y" (.num 0)) ++ ");\n"
  ++ indent ++ "lv_obj_set_size(" ++ varName ++ ", "
    ++ jsString (getPropD node.properties "width" (.num 100)) ++ ", "
    ++ jsString (getPropD node.properties "height" (.num 50)) ++ ");\n"
  ++ propsCode node.type varName indent node.properties

mutual
/-- The function `generateComponentCode`, with the module-global
`_componentCounter` made an explicit argument and result.  The variable name is
the node's `name` when nonempty, otherwise `<type-without-lv_>_<++counter>`. -/
def generateComponentCode : LvglNode → String → String → Bool → Nat → String × Nat
  | .mk i ty nm props children, parentVar, indent, generateComments, counter =>
    match getComponentByType ty with
    | none => (indent ++ "// Unknown component type: " ++ ty ++ "\n", counter)
    | some componentDef =>
      (nodeOwnCode componentDef (.mk i ty nm props children) parentVar indent
          generateComments
          (if nm = "" then stripLv ty ++ "_" ++ natDecimal (counter + 1) else nm)
        ++ "\n"
        ++ (generateForestCode children
            (if nm = "" then stripLv ty ++ "_" ++ natDecimal (counter + 1) else nm)
            indent generateComments (if nm = "" then counter + 1 else counter)).1,
       (generateForestCode children
            (if nm = "" then stripLv ty ++ "_" ++ natDecimal (counter + 1) else nm)
            indent generateComments (if nm = "" then counter + 1 else counter)).2)
/-- The loop of `generateComponentCode` over the children of a node (also the
loop of `generateCode` over the root nodes). -/
def generateForestCode : LvglForest → String → String → Bool → Nat → String × Nat
  | .nil, _, _, _, counter => ("", counter)
  | .cons n rest, parentVar, indent, generateComments, counter =>
    ((generateComponentCode n parentVar indent generateComments counter).1
        ++ (generateForestCode rest parentVar indent generateComments
            (generateComponentCode n parentVar indent generateComments counter).2).1,
     (generateForestCode rest parentVar indent generateComments
         (generateComponentCode n parentVar indent generateComments counter).2).2)
end

/-- ASCII upper-casing of one character, as JavaScript `toUpperCase` acts on
ASCII input. -/
def upChar (c : Char) : Char :=
  if 97 ≤ c.toNat && c.toNat ≤ 122 then Char.ofNat (c.toNat - 32) else c

/-- ASCII lower-casing of one character, as JavaScript `toLowerCase` acts on
ASCII input. -/
def downChar (c : Char) : Char :=
  if 65 ≤ c.toNat && c.toNat ≤ 90 then Char.ofNat (c.toNat + 32) else c

/-- The JavaScript `screenName.toUpperCase()` (ASCII range). -/
def jsUpper (s : String) : String := ⟨s.data.map upChar⟩

/-- The JavaScript `screenName.toLowerCase()` (ASCII range). -/
def jsLower (s : String) : String := ⟨s.data.map downChar⟩

/-- The result record of `generateCode`. -/
structure GeneratedCode where
  headerContent : String
  sourceContent : String
deriving DecidableEq, Repr

/-- The header artifact built by `generateCode`. -/
def headerText (screenName : String) (generateComments : Bool) : String :=
  (if generateComments then
    "/**\n * @file " ++ jsLower screenName ++ ".h\n * @brief " ++ screenName
      ++ " screen header\n * @note Auto-generated by LVGL Builder\n */\n\n"
  else "")
  ++ "#ifndef " ++ jsUpper screenName ++ "_H\n#define " ++ jsUpper screenName ++ "_H\n\n"
  ++ (if generateComments then
    "/*********************\n *      INCLUDES\n *********************/\n"
  else "")
  ++ "#include \"lvgl.h\"\n\n"
  ++ (if generateComments then
    "/*********************\n *      DEFINES\n *********************/\n\n"
      ++ "/**********************\n * GLOBAL PROTOTYPES\n **********************/\n"
  else "")
  ++ "void " ++ jsLower screenName ++ "_create(lv_obj_t *parent);\n\n"
  ++ "#endif /* " ++ jsUpper screenName ++ "_H */\n"

/-- The source artifact built by `generateCode` (the component traversal
starts from the freshly reset counter 0). -/
def sourceText (rootNodes : LvglForest) (screenName : String)
    (generateComments : Bool) : String :=
  (if generateComments then
    "/**\n * @file " ++ jsLower screenName ++ ".c\n * @brief " ++ screenName
      ++ " screen implementation\n * @note Auto-generated by LVGL Builder\n */\n\n"
      ++ "/*********************\n *      INCLUDES\n *********************/\n"
  else "")
  ++ "#include \"" ++ jsLower screenName ++ ".h\"\n\n"
  ++ (if generateComments then
    "/*********************\n *      DEFINES\n *********************/\n\n"
      ++ "/**********************\n *  STATIC VARIABLES\n **********************/\n\n"
      ++ "/**********************\n *  STATIC PROTOTYPES\n **********************/\n\n"
      ++ "/**********************\n * GLOBAL FUNCTIONS\n **********************/\n\n"
      ++ "/**\n * Create the " ++ screenName
      ++ " screen\n * @param parent pointer to parent object\n */\n"
  else "")
  ++ "void " ++ jsLower screenName ++ "_create(lv_obj_t *parent)\n\x7b\n"
  ++ (generateForestCode rootNodes "parent" "    " generateComments 0).1
  ++ "\x7d\n"
  ++ (if generateComments then
    "\n/**********************\n *  STATIC FUNCTIONS\n **********************/\n"
  else "")

/-- The function `generateCode`, with the module-global `_componentCounter`
made explicit: `counterIn` is its value when the call starts and the second
component of the result its value when the call returns.  The body assigns
`_componentCounter = 0` before traversing, exactly as the source does, so the
traversal and both artifacts start from counter 0. -/
def generateCode (rootNodes : LvglForest) (screenName : String)
    (generateComments : Bool) (counterIn : Nat) : GeneratedCode × Nat :=
  have _ := counterIn
  ({ headerContent := headerText screenName generateComments,
     sourceContent := sourceText rootNodes screenName generateComments },
   (generateForestCode rootNodes "parent" "    " generateComments 0).2)

/-- Escape double quotes as `&quot;`, the `value.replace(/"/g, '&quot;')` of
`nodeToXml`. -/
def escapeQuotData : List Char → List Char
  | [] => []
  | '"' :: rest => '&' :: 'q' :: 'u' :: 'o' :: 't' :: ';' :: escapeQuotData rest
  | c :: rest => c :: escapeQuotData rest

/-- XML attribute-value quote escaping on strings. -/
def escapeQuot (s : String) : String := ⟨escapeQuotData s.data⟩

/-- The text `nodeToXml` writes for one property value: string values with
quotes escaped, numbers and booleans via `${value}`. -/
def attrText : Scalar → String
  | .str s => escapeQuot s
  | v => jsString v

/-- The property-attribute portion of an opening tag written by `nodeToXml`,
in insertion order. -/
def propsAttrText : List (String × Scalar) → String
  | [] => ""
  | (k, v) :: rest => " " ++ k ++ "=\"" ++ attrText v ++ "\"" ++ propsAttrText rest

mutual
/-- The function `nodeToXml`: one element per node, tag name the type with its
first `lv_` removed, `id` and `name` first (written raw), then the properties;
self-closing without children, otherwise nested indented children and a close
tag. -/
def nodeToXml : LvglNode → String → String
  | .mk i ty nm props children, indent =>
    let tagName := stripLv ty
    let openPart := indent ++ "<" ++ tagName ++ " id=\"" ++ i ++ "\" name=\"" ++ nm ++ "\""
      ++ propsAttrText props
    match children with
    | .nil => openPart ++ "/>\n"
    | .cons c rest =>
      openPart ++ ">\n" ++ forestToXml (.cons c rest) (indent ++ "  ") ++ indent ++ "</"
        ++ tagName ++ ">\n"
/-- The loop of `nodesToXml`/`nodeToXml` over a forest. -/
def forestToXml : LvglForest → String → String
  | .nil, _ => ""
  | .cons n rest, indent => nodeToXml n indent ++ forestToXml rest indent
end

/-- The function `nodesToXml`: XML declaration, `lvgl` wrapper, one element per
root node. -/
def nodesToXml (nodes : LvglForest) : String :=
  "<?xml version=\"1.0\" encoding=\"UTF-8\"?>\n<lvgl version=\"1.0\">\n"
    ++ forestToXml nodes "  " ++ "</lvgl>\n"

/-- Whitespace characters skipped between markup tokens. -/
def isWsChar (c : Char) : Bool := c = ' ' || c = '\n' || c = '\t' || c = '\r'

/-- Characters allowed in a tag or attribute name by the markup reader. -/
def nameOk (c : Char) : Bool :=
  !(isWsChar c || c = '<' || c = '>' || c = '/' || c = '=' || c = '"' || c = '&' || c = '?')

/-- Decode `&quot;` entities in an attribute value, the inverse surface of the
serializer's quote escaping.  Modelled from the spec: entity decoding happens
inside `fast-xml-parser`, which is not part of this repository. -/
def decodeQuot : List Char → List Char
  | [] => []
  | '&' :: 'q' :: 'u' :: 'o' :: 't' :: ';' :: rest => '"' :: decodeQuot rest
  | c :: rest => c :: decodeQuot rest

/-- Whether every character is a decimal digit. -/
def allDigits (cs : List Char) : Bool := cs.all (fun c => '0' ≤ c && c ≤ '9')

/-- Whether a character list looks like a (decimal integer) number. -/
def isNumericChars (cs : List Char) : Bool :=
  match cs with
  | [] => false
  | '-' :: rest => !rest.isEmpty && allDigits rest
  | _ => allDigits cs

/-- Value of a digit list read in base ten. -/
def digitsToNat (cs : List Char) : Nat :=
  cs.foldl (fun a c => a * 10 + (c.toNat - '0'.toNat)) 0

/-- Integer value of a numeric-looking character list. -/
def charsToInt : List Char → Int
  | '-' :: rest => -(digitsToNat rest : Int)
  | cs => (digitsToNat cs : Int)

/-- Coerce a textual attribute value to a typed scalar: the literals `true`
and `false` become booleans, numeric-looking strings become numbers, anything
else stays a string.  Modelled from the spec: this coercion is performed by
`fast-xml-parser` (not part of this repository) before `parseChildren` sees
the value. -/
def coerceValue (s : String) : Scalar :=
  if s = "true" then .bool true
  else if s = "false" then .bool false
  else if isNumericChars s.data then .num (charsToInt s.data)
  else .str s

mutual
/-- Modelled from the spec: the object `fast-xml-parser` hands to
`parseChildren` for one element — tag name, attributes (coerced scalars, in
document order, later repetitions of a name overwriting earlier ones as in a
JavaScript object), and child elements in document order. -/
inductive RawElem where
  | mk : String → List (String × Scalar) → RawElems → RawElem
/-- An ordered sequence of parsed elements. -/
inductive RawElems where
  | nil : RawElems
  | cons : RawElem → RawElems → RawElems
end

/-- The tag name of a parsed element. -/
def RawElem.tag : RawElem → String
  | .mk t _ _ => t

/-- The attributes of a parsed element. -/
def RawElem.attrs : RawElem → List (String × Scalar)
  | .mk _ a _ => a

/-- The child elements of a parsed element. -/
def RawElem.childElems : RawElem → RawElems
  | .mk _ _ c => c

/-- Insert a key/value pair as JavaScript object assignment does: an existing
key keeps its position and takes the new value, a new key is appended. -/
def jsInsert (l : List (String × Scalar)) (k : String) (v : Scalar) :
    List (String × Scalar) :=
  if l.any (fun kv => kv.1 = k) then
    l.map (fun kv => if kv.1 = k then (k, v) else kv)
  else l ++ [(k, v)]

/-- Modelled from the spec: the attribute scanner of the markup reader.  Reads
`name="value"` pairs (double-quoted, quotes decoded, values coerced) until the
`/` or `>` that ends the opening tag. -/
def parseAttrs : Nat → List (String × Scalar) → List Char →
    Option (List (String × Scalar) × List Char)
  | 0, _, _ => none
  | fuel + 1, acc, cs =>
    let cs1 := cs.dropWhile isWsChar
    match cs1 with
    | '/' :: rest => some (acc, '/' :: rest)
    | '>' :: rest => some (acc, '>' :: rest)
    | _ =>
      let k := cs1.takeWhile nameOk
      let r1 := cs1.dropWhile nameOk
      if k.isEmpty then none
      else
        match r1 with
        | '=' :: '"' :: r2 =>
          let vraw := r2.takeWhile (fun c => !(c = '"'))
          let r3 := r2.dropWhile (fun c => !(c = '"'))
          match r3 with
          | '"' :: r4 =>
            parseAttrs fuel (jsInsert acc ⟨k⟩ (coerceValue ⟨decodeQuot vraw⟩)) r4
          | _ => none
        | _ => none

mutual
/-- Modelled from the spec: read one element starting at `<` — tag name,
attributes, then either `/>` or `>` children `</tag>` with a matching close
tag. -/
def parseElem : Nat → List Char → Option (RawElem × List Char)
  | 0, _ => none
  | fuel + 1, cs =>
    match cs with
    | '<' :: cs1 =>
      let t := cs1.takeWhile nameOk
      let r1 := cs1.dropWhile nameOk
      if t.isEmpty then none
      else
        match parseAttrs (r1.length + 1) [] r1 with
        | none => none
        | some (attrs, r2) =>
          match r2 with
          | '/' :: '>' :: r3 => some (.mk ⟨t⟩ attrs .nil, r3)
          | '>' :: r3 =>
            match parseElems fuel r3 with
            | none => none
            | some (children, r4) =>
              match r4 with
              | '<' :: '/' :: r5 =>
                let t2 := r5.takeWhile nameOk
                let r6 := r5.dropWhile nameOk
                if t2 = t then
                  match r6 with
                  | '>' :: r7 => some (.mk ⟨t⟩ attrs children, r7)
                  | _ => none
                else none
              | _ => none
          | _ => none
    | _ => none
/-- Modelled from the spec: read a sequence of sibling elements up to the next
close tag, skipping whitespace and text content between them. -/
def parseElems : Nat → List Char → Option (RawElems × List Char)
  | 0, _ => none
  | fuel + 1, cs =>
    let cs1 := cs.dropWhile isWsChar
    match cs1 with
    | [] => none
    | '<' :: '/' :: rest => some (.nil, '<' :: '/' :: rest)
    | '<' :: _ =>
      match parseElem fuel cs1 with
      | none => none
      | some (e, r) =>
        match parseElems fuel r with
        | none => none
        | some (es, r2) => some (.cons e es, r2)
    | _ :: cs2 =>
      parseElems fuel (cs2.dropWhile (fun c => !(c = '<')))
end

/-- Modelled from the spec: after `<?`, drop input through the closing `?>` of
the declaration. -/
def skipDeclTail : Nat → List Char → Option (List Char)
  | 0, _ => none
  | fuel + 1, cs =>
    match cs with
    | '?' :: '>' :: rest => some rest
    | _ :: rest => skipDeclTail fuel rest
    | [] => none

/-- Modelled from the spec: read a whole document — any `<?...?>` declarations
and the top-level elements, with nothing but whitespace besides them.
Whitespace-only input yields no elements; anything unreadable is `none`, the
condition under which `parseXmlToNodes` catches and returns the empty
forest. -/
def parseTopElems : Nat → List Char → Option RawElems
  | 0, _ => none
  | fuel + 1, cs =>
    let cs1 := cs.dropWhile isWsChar
    match cs1 with
    | [] => some .nil
    | '<' :: '?' :: r =>
      match skipDeclTail (r.length + 1) r with
      | none => none
      | some r2 => parseTopElems fuel r2
    | '<' :: '/' :: _ => none
    | '<' :: _ =>
      match parseElem (cs1.length + 1) cs1 with
      | none => none
      | some (e, r) =>
        match parseTopElems fuel r with
        | none => none
        | some es => some (.cons e es)
    | _ :: _ => none

/-- Modelled from the spec: the whole markup reader, `parser.parse` of
`fast-xml-parser` — `none` stands for the exception the `try`/`catch` of
`parseXmlToNodes` swallows. -/
def xmlParseDoc (cs : List Char) : Option RawElems :=
  parseTopElems (cs.length + 1) cs

/-- The keys `parseChildren` skips when looking for child components:
`@`-led keys, `#text` and `lvgl`. -/
def skipTag (t : String) : Bool :=
  (match t.data with
   | '@' :: _ => true
   | _ => false)
  || t = "#text" || t = "lvgl"

mutual
/-- The node construction of `parseChildren` for one element: `id` from the
attribute when truthy, else synthesized (the `Date.now()`-and-random suffix of
the source is modelled from the spec as a fresh-id supply, threaded as a
counter); `type` is the tag with `lv_` prepended when missing; `name` falls
back to the tag; attributes other than `id`/`name` become the properties;
children are parsed recursively. -/
def parseNodeM : RawElem → Nat → LvglNode × Nat
  | .mk tag attrs childElems, supply =>
    let idAttr := (attrs.find? (fun kv => kv.1 = "id")).map (fun kv => kv.2)
    let nameAttr := (attrs.find? (fun kv => kv.1 = "name")).map (fun kv => kv.2)
    let idPick : String × Nat :=
      match idAttr with
      | some v =>
        if truthy v then (jsString v, supply)
        else (tag ++ "_" ++ natDecimal supply, supply + 1)
      | none => (tag ++ "_" ++ natDecimal supply, supply + 1)
    let ty := if hasLvHead tag.data then tag else "lv_" ++ tag
    let nm :=
      match nameAttr with
      | some v => if truthy v then jsString v else tag
      | none => tag
    let props := attrs.filter (fun kv => !(kv.1 = "id" || kv.1 = "name"))
    let childPick := parseNodesM childElems idPick.2
    (.mk idPick.1 ty nm props childPick.1, childPick.2)
/-- The loop of `parseChildren` over sibling elements, skipping reserved
keys. -/
def parseNodesM : RawElems → Nat → LvglForest × Nat
  | .nil, supply => (.nil, supply)
  | .cons e rest, supply =>
    if skipTag e.tag then parseNodesM rest supply
    else
      let first := parseNodeM e supply
      let others := parseNodesM rest first.2
      (.cons first.1 others.1, others.2)
end

/-- Find the `lvgl` root wrapper among the top-level elements, the
`parsed.lvgl` access of `parseXmlToNodes`. -/
def findLvgl : RawElems → Option RawElem
  | .nil => none
  | .cons e rest => if e.tag = "lvgl" then some e else findLvgl rest

/-- The function `parseXmlToNodes`: read the markup, unwrap the `lvgl` root
wrapper when present, and build the forest; unreadable input yields the empty
forest (the `try`/`catch`).  `supply` models the nondeterministic fresh-id
source (`Date.now()` plus a random suffix) used for elements without a truthy
`id` attribute. -/
def parseXmlToNodes (xmlContent : String) (supply : Nat) : LvglForest :=
  match xmlParseDoc xmlContent.data with
  | none => .nil
  | some elems =>
    match findLvgl elems with
    | some root => (parseNodesM root.childElems supply).1
    | none => (parseNodesM elems supply).1

/-- Split a character list into its lines; the final line needs no trailing
newline. -/
def linesOf : List Char → List (List Char)
  | [] => []
  | c :: rest =>
    if c = '\n' then [] :: linesOf rest
    else
      match linesOf rest with
      | [] => [[c]]
      | l :: ls => (c :: l) :: ls

/-- Whether a character list is nonempty and ends with a newline. -/
def endsNl : List Char → Bool
  | [] => false
  | c :: rest => if rest.isEmpty then c = '\n' else endsNl rest

/-- Leading whitespace removed. -/
def trimHead (cs : List Char) : List Char := cs.dropWhile isWsChar

/-- Whether a line is (part of) a `/* ... */` banner or doc comment: after its
indentation it starts with `/*` or with `*`. -/
def isCommentLine (l : List Char) : Bool :=
  match trimHead l with
  | '/' :: '*' :: _ => true
  | '*' :: _ => true
  | _ => false

/-- Whether a line holds only whitespace. -/
def isBlankLine (l : List Char) : Bool := (trimHead l).isEmpty

/-- The lines of a text that are neither comment lines nor blank. -/
def codeLines (s : String) : List (List Char) :=
  (linesOf s.data).filter (fun l => !isCommentLine l && !isBlankLine l)

/-- Reassemble lines, terminating each with a newline. -/
def joinNl : List (List Char) → List Char
  | [] => []
  | l :: ls => l ++ '\n' :: joinNl ls

/-- Delete every comment line from a text, keeping every other line (blank
lines included). -/
def removeCommentLines (s : String) : String :=
  ⟨joinNl ((linesOf s.data).filter (fun l => !isCommentLine l))⟩

/-- Whether a string is free of newline characters. -/
def noNlStr (s : String) : Bool := s.data.all (fun c => !(c = '\n'))

mutual
/-- Whether the `type` and `name` of a node and of all its descendants are free
of newline characters. -/
def nodeNoNl : LvglNode → Bool
  | .mk _ ty nm _ children => noNlStr ty && noNlStr nm && forestNoNl children
/-- `nodeNoNl` over a forest. -/
def forestNoNl : LvglForest → Bool
  | .nil => true
  | .cons n rest => nodeNoNl n && forestNoNl rest
end

/-- Whether a string is a usable attribute name for the markup reader:
nonempty, made of name characters, and not one of the reserved keys `id` and
`name`. -/
def validAttrKey (k : String) : Bool :=
  !k.data.isEmpty && k.data.all nameOk && !(k = "id") && !(k = "name")

/-- Whether an `id` or `name` string survives the serialize-reparse cycle: it
holds no double quote (it is written raw into the markup), and decoding and
re-coercing it yields a truthy scalar that renders back to the very string. -/
def stableIdName (s : String) : Bool :=
  s.data.all (fun c => !(c = '"')) &&
  truthy (coerceValue ⟨decodeQuot s.data⟩) &&
  decide (jsString (coerceValue ⟨decodeQuot s.data⟩) = s)

/-- Whether a property value survives the serialize-reparse cycle: its
attribute text holds no double quote and decodes and coerces back to the same
scalar. -/
def wfValue (v : Scalar) : Bool :=
  (attrText v).data.all (fun c => !(c = '"')) &&
  decide (coerceValue ⟨decodeQuot (attrText v).data⟩ = v)

/-- Whether a node type survives the serialize-reparse cycle: removing `lv_`
leaves a nonempty tag of name characters that is not reserved, and prefixing
the tag again restores the type. -/
def wfType (ty : String) : Bool :=
  let t := stripLv ty
  !t.data.isEmpty && t.data.all nameOk &&
  decide ((if hasLvHead t.data then t else "lv_" ++ t) = ty) &&
  !(skipTag t)

/-- Whether a list of keys is free of repetitions. -/
def keysDistinct : List String → Bool
  | [] => true
  | k :: rest => !(rest.any (fun k2 => k2 = k)) && keysDistinct rest

mutual
/-- Well-formedness of a node for the round-trip law: id, name, type,
property keys and values as above, recursively through the children. -/
def wfNode : LvglNode → Bool
  | .mk i ty nm props children =>
    stableIdName i && stableIdName nm && wfType ty &&
    props.all (fun kv => validAttrKey kv.1 && wfValue kv.2) &&
    keysDistinct (props.map Prod.fst) &&
    wfForest children
/-- `wfNode` over a forest. -/
def wfForest : LvglForest → Bool
  | .nil => true
  | .cons n rest => wfNode n && wfForest rest
end

mutual
/-- The element the markup reader produces from the serialized form of a
node: the stripped tag, the `id`/`name`/property attributes decoded and
coerced, and the children recursively. -/
def elemOfNode : LvglNode → RawElem
  | .mk i ty nm props children =>
    .mk (stripLv ty)
      (("id", coerceValue ⟨decodeQuot i.data⟩)
        :: ("name", coerceValue ⟨decodeQuot nm.data⟩)
        :: props.map (fun kv => (kv.1, coerceValue ⟨decodeQuot (attrText kv.2).data⟩)))
      (elemsOfForest children)
/-- `elemOfNode` over a forest. -/
def elemsOfForest : LvglForest → RawElems
  | .nil => .nil
  | .cons n rest => .cons (elemOfNode n) (elemsOfForest rest)
end

/-- The `name="raw value"` attribute sequence of an opening tag, one leading
space before each attribute (an abstraction of the attribute text both
`nodeToXml` outputs and the markup reader consumes). -/
def rawAttrsText : List (String × String) → String
  | [] => ""
  | (k, raw) :: rest => " " ++ k ++ "=\"" ++ raw ++ "\"" ++ rawAttrsText rest

/-- Raw attribute pairs the markup reader can read back verbatim: nonempty
keys of name characters and values free of double quotes. -/
def wfRawAttrs : List (String × String) → Bool
  | [] => true
  | (k, raw) :: rest =>
    !k.data.isEmpty && k.data.all nameOk && raw.data.all (fun c => !(c = '"')) &&
    wfRawAttrs rest

/-- The raw attribute pairs `nodeToXml` writes for a property list. -/
def propPairs (props : List (String × Scalar)) : List (String × String) :=
  props.map (fun kv => (kv.1, attrText kv.2))

theorem strAppend_assoc (a b c : String) : a ++ b ++ c = a ++ (b ++ c) :=
  String.append_assoc a b c

/-- Claim C5: a node whose type is not in the component registry emits exactly
one comment line naming the unknown type and nothing else — no constructor,
geometry or property statements, no output from any descendant, and the
counter is untouched. -/
theorem c5_unknown_type_comment_only (node : LvglNode) (parentVar indent : String)
    (generateComments : Bool) (counter : Nat)
    (h : getComponentByType node.type = none) :
    generateComponentCode node parentVar indent generateComments counter
      = (indent ++ "// Unknown component type: " ++ node.type ++ "\n", counter) := by
  cases node with
  | mk i ty nm props children =>
    simp only [LvglNode.type] at h ⊢
    simp only [generateComponentCode, h]

/-- Witness for C5: a concrete unregistered node with a child; the output is
the single comment line and the child contributes nothing. -/
theorem c5_unknown_type_comment_only_witness :
    getComponentByType
        (LvglNode.mk "i" "lv_bogus" "n" []
          (.cons (.mk "c" "lv_label" "x" [] .nil) .nil)).type = none
    ∧ generateComponentCode
        (LvglNode.mk "i" "lv_bogus" "n" []
          (.cons (.mk "c" "lv_label" "x" [] .nil) .nil)) "parent" "    " true 7
      = ("    " ++ "// Unknown component type: " ++ "lv_bogus" ++ "\n", 7) :=
  ⟨by decide,
   c5_unknown_type_comment_only _ "parent" "    " true 7 (by decide)⟩

/-- Claim C6: `generateCode` resets the component counter at the start of
every top-level call, so its result does not depend on the incoming counter
state, and two successive calls with the same arguments (the second starting
from the counter the first left behind) return identical texts. -/
theorem c6_counter_reset_deterministic (rootNodes : LvglForest) (screenName : String)
    (generateComments : Bool) (c1 c2 : Nat) :
    generateCode rootNodes screenName generateComments c1
      = generateCode rootNodes screenName generateComments c2
    ∧ (generateCode rootNodes screenName generateComments
        (generateCode rootNodes screenName generateComments c1).2).1
      = (generateCode rootNodes screenName generateComments c1).1 :=
  ⟨rfl, rfl⟩

/-- Claim C7: every registry-known node emits, immediately after its
construction statement, a position and a size statement whose arguments come
from the `x`/`y`/`width`/`height` properties, and when none of those keys is
present the arguments are the defaults `(0, 0)` and `(100, 50)`. -/
theorem c7_geometry_defaults (node : LvglNode) (parentVar indent : String)
    (generateComments : Bool) (counter : Nat) (componentDef : LvglComponent)
    (h : getComponentByType node.type = some componentDef) :
    (∃ varName rest,
      (generateComponentCode node parentVar indent generateComments counter).1
        = (if generateComments then
            indent ++ "/* Create " ++ componentDef.displayName ++ ": " ++ varName ++ " */\n"
          else "")
          ++ (indent ++ "lv_obj_t *" ++ varName ++ " = " ++ componentDef.createCode ++ "("
            ++ parentVar ++ ");\n"
          ++ (indent ++ "lv_obj_set_pos(" ++ varName ++ ", "
            ++ jsString (getPropD node.properties "x" (.num 0)) ++ ", "
            ++ jsString (getPropD node.properties "y" (.num 0)) ++ ");\n"
          ++ (indent ++ "lv_obj_set_size(" ++ varName ++ ", "
            ++ jsString (getPropD node.properties "width" (.num 100)) ++ ", "
            ++ jsString (getPropD node.properties "height" (.num 50)) ++ ");\n"
          ++ rest))))
    ∧ ((node.properties.find? (fun kv => kv.1 = "x") = none
        ∧ node.properties.find? (fun kv => kv.1 = "y") = none
        ∧ node.properties.find? (fun kv => kv.1 = "width") = none
        ∧ node.properties.find? (fun kv => kv.1 = "height") = none) →
      jsString (getPropD node.properties "x" (.num 0)) = "0"
      ∧ jsString (getPropD node.properties "y" (.num 0)) = "0"
      ∧ jsString (getPropD node.properties "width" (.num 100)) = "100"
      ∧ jsString (getPropD node.properties "height" (.num 50)) = "50") := by
  constructor
  · cases node with
    | mk i ty nm props children =>
      simp only [LvglNode.type] at h
      refine ⟨if nm = "" then stripLv ty ++ "_" ++ natDecimal (counter + 1) else nm,
        propsCode ty (if nm = "" then stripLv ty ++ "_" ++ natDecimal (counter + 1) else nm)
            indent props
          ++ ("\n" ++ (generateForestCode children
            (if nm = "" then stripLv ty ++ "_" ++ natDecimal (counter + 1) else nm)
            indent generateComments (if nm = "" then counter + 1 else counter)).1), ?_⟩
      simp only [generateComponentCode, h, nodeOwnCode, LvglNode.properties, LvglNode.type,
        LvglNode.name, LvglNode.children]
      simp only [strAppend_assoc]
  · rintro ⟨hx, hy, hw, hh⟩
    refine ⟨?_, ?_, ?_, ?_⟩ <;> simp only [getPropD, hx, hy, hw, hh] <;> decide

/-- Witness for C7: a concrete registry-known node with no geometry keys gets
position `(0, 0)` and size `(100, 50)`. -/
theorem c7_geometry_defaults_witness :
    getComponentByType (LvglNode.mk "i" "lv_label" "ttl" [("text", .str "Hi")] .nil).type
      = some ⟨"lv_label", "Label", false, "lv_label_create"⟩
    ∧ ((∃ varName rest,
        (generateComponentCode (LvglNode.mk "i" "lv_label" "ttl" [("text", .str "Hi")] .nil)
            "parent" "    " false 0).1
          = (if false then
              "    " ++ "/* Create " ++ "Label" ++ ": " ++ varName ++ " */\n"
            else "")
            ++ ("    " ++ "lv_obj_t *" ++ varName ++ " = " ++ "lv_label_create" ++ "("
              ++ "parent" ++ ");\n"
            ++ ("    " ++ "lv_obj_set_pos(" ++ varName ++ ", "
              ++ jsString (getPropD [("text", .str "Hi")] "x" (.num 0)) ++ ", "
              ++ jsString (getPropD [("text", .str "Hi")] "y" (.num 0)) ++ ");\n"
            ++ ("    " ++ "lv_obj_set_size(" ++ varName ++ ", "
              ++ jsString (getPropD [("text", .str "Hi")] "width" (.num 100)) ++ ", "
              ++ jsString (getPropD [("text", .str "Hi")] "height" (.num 50)) ++ ");\n"
            ++ rest))))
      ∧ (([("text", Scalar.str "Hi")].find? (fun kv => kv.1 = "x") = none
          ∧ [("text", Scalar.str "Hi")].find? (fun kv => kv.1 = "y") = none
          ∧ [("text", Scalar.str "Hi")].find? (fun kv => kv.1 = "width") = none
          ∧ [("text", Scalar.str "Hi")].find? (fun kv => kv.1 = "height") = none) →
        jsString (getPropD [("text", Scalar.str "Hi")] "x" (.num 0)) = "0"
        ∧ jsString (getPropD [("text", Scalar.str "Hi")] "y" (.num 0)) = "0"
        ∧ jsString (getPropD [("text", Scalar.str "Hi")] "width" (.num 100)) = "100"
        ∧ jsString (getPropD [("text", Scalar.str "Hi")] "height" (.num 50)) = "50")) :=
  ⟨by decide,
   c7_geometry_defaults (LvglNode.mk "i" "lv_label" "ttl" [("text", .str "Hi")] .nil)
     "parent" "    " false 0 ⟨"lv_label", "Label", false, "lv_label_create"⟩ (by decide)⟩

set_option maxRecDepth 8000 in
/-- Counterexample to claim C8 as stated: for a concrete parent with one
child, the blank separator line appears between the parent's own statements
and the child's statements (first conjunct, the actual output), not only after
the whole subtree (second conjunct, the output the claim describes). -/
theorem c8_separator_placement_cex :
    (generateComponentCode
        (.mk "ia" "lv_obj" "a" [] (.cons (.mk "ib" "lv_label" "b" [] .nil) .nil))
        "parent" "    " false 0).1
      = "    lv_obj_t *a = lv_obj_create(parent);\n    lv_obj_set_pos(a, 0, 0);\n    lv_obj_set_size(a, 100, 50);\n\n    lv_obj_t *b = lv_label_create(a);\n    lv_obj_set_pos(b, 0, 0);\n    lv_obj_set_size(b, 100, 50);\n\n"
    ∧ ¬ (generateComponentCode
        (.mk "ia" "lv_obj" "a" [] (.cons (.mk "ib" "lv_label" "b" [] .nil) .nil))
        "parent" "    " false 0).1
      = "    lv_obj_t *a = lv_obj_create(parent);\n    lv_obj_set_pos(a, 0, 0);\n    lv_obj_set_size(a, 100, 50);\n    lv_obj_t *b = lv_label_create(a);\n    lv_obj_set_pos(b, 0, 0);\n    lv_obj_set_size(b, 100, 50);\n\n" := by
  constructor
  · decide
  · decide

/-- Claim C8 as amended: for a registry-known node the single blank separator
line is emitted after the node's own statements and before its children's
statements; consequently the last line of a whole subtree is the blank line
its deepest last descendant emits. -/
theorem c8_separator_before_children (node : LvglNode) (parentVar indent : String)
    (generateComments : Bool) (counter : Nat) (componentDef : LvglComponent)
    (h : getComponentByType node.type = some componentDef) :
    ∃ varName counter1,
      (generateComponentCode node parentVar indent generateComments counter).1
        = nodeOwnCode componentDef node parentVar indent generateComments varName ++ "\n"
          ++ (generateForestCode node.children varName indent generateComments counter1).1 := by
  cases node with
  | mk i ty nm props children =>
    simp only [LvglNode.type] at h
    refine ⟨if nm = "" then stripLv ty ++ "_" ++ natDecimal (counter + 1) else nm,
      if nm = "" then counter + 1 else counter, ?_⟩
    simp only [generateComponentCode, h, LvglNode.children]

/-- Witness for C8 as amended: the separator decomposition at a concrete
parent-with-child node. -/
theorem c8_separator_before_children_witness :
    getComponentByType
        (LvglNode.mk "ia" "lv_obj" "a" []
          (.cons (.mk "ib" "lv_label" "b" [] .nil) .nil)).type
      = some ⟨"lv_obj", "Object", true, "lv_obj_create"⟩
    ∧ ∃ varName counter1,
      (generateComponentCode
          (LvglNode.mk "ia" "lv_obj" "a" []
            (.cons (.mk "ib" "lv_label" "b" [] .nil) .nil)) "parent" "    " false 0).1
        = nodeOwnCode ⟨"lv_obj", "Object", true, "lv_obj_create"⟩
            (LvglNode.mk "ia" "lv_obj" "a" []
              (.cons (.mk "ib" "lv_label" "b" [] .nil) .nil)) "parent" "    " false varName
          ++ "\n"
          ++ (generateForestCode
            (LvglNode.mk "ia" "lv_obj" "a" []
              (.cons (.mk "ib" "lv_label" "b" [] .nil) .nil)).children
            varName "    " false counter1).1 :=
  ⟨by decide,
   c8_separator_before_children _ "parent" "    " false 0
     ⟨"lv_obj", "Object", true, "lv_obj_create"⟩ (by decide)⟩

set_option maxRecDepth 16000 in
/-- Counterexample to claim C9 as stated: the markup with two unnamed `label`
siblings parses to two nodes whose `name` is already the tag name `label`
(first conjunct), and the generated source holds no `_1` or `_2` suffixed
variable name (second and third conjuncts) — both siblings are emitted under
the variable name `label`. -/
theorem c9_sibling_names_cex :
    parseXmlToNodes "<lvgl version=\"1.0\"><label id=\"a\" /><label id=\"b\"/></lvgl>" 0
      = .cons (.mk "a" "lv_label" "label" [] .nil)
          (.cons (.mk "b" "lv_label" "label" [] .nil) .nil)
    ∧ strHasSub
        (generateCode
          (parseXmlToNodes "<lvgl version=\"1.0\"><label id=\"a\" /><label id=\"b\"/></lvgl>" 0)
          "main" false 0).1.sourceContent "_1" = false
    ∧ strHasSub
        (generateCode
          (parseXmlToNodes "<lvgl version=\"1.0\"><label id=\"a\" /><label id=\"b\"/></lvgl>" 0)
          "main" false 0).1.sourceContent "_2" = false := by
  refine ⟨rfl, ?_, ?_⟩
  · decide
  · decide

/-- Claim C9 as amended: two sibling nodes of the same kind with no explicit
`name` attribute are both assigned the tag name as variable name (the parser
defaults `name` to the tag, so it is never empty and the counter-suffixed
`_N` names are never used for parsed nodes); in general, any registry-known
node with a nonempty `name` is emitted under exactly that name. -/
theorem c9_parsed_siblings_tag_names :
    (parseXmlToNodes "<lvgl version=\"1.0\"><label id=\"a\" /><label id=\"b\"/></lvgl>" 0
      = .cons (.mk "a" "lv_label" "label" [] .nil)
          (.cons (.mk "b" "lv_label" "label" [] .nil) .nil))
    ∧ (∀ (node : LvglNode) (parentVar indent : String) (generateComments : Bool)
        (counter : Nat) (componentDef : LvglComponent),
        getComponentByType node.type = some componentDef → ¬(node.name = "") →
        ∃ rest counter1,
          generateComponentCode node parentVar indent generateComments counter
            = (nodeOwnCode componentDef node parentVar indent generateComments node.name
                ++ "\n" ++ rest, counter1)) := by
  constructor
  · rfl
  · intro node parentVar indent generateComments counter componentDef h hnm
    cases node with
    | mk i ty nm props children =>
      simp only [LvglNode.type] at h
      simp only [LvglNode.name] at hnm ⊢
      refine ⟨(generateForestCode children nm indent generateComments counter).1,
        (generateForestCode children nm indent generateComments counter).2, ?_⟩
      simp only [generateComponentCode, h, if_neg hnm]

/-- Witness for C9 as amended: the general part applied at a concrete named
label node. -/
theorem c9_parsed_siblings_tag_names_witness :
    getComponentByType (LvglNode.mk "a" "lv_label" "label" [] .nil).type
      = some ⟨"lv_label", "Label", false, "lv_label_create"⟩
    ∧ ¬((LvglNode.mk "a" "lv_label" "label" [] .nil).name = "")
    ∧ ∃ rest counter1,
        generateComponentCode (LvglNode.mk "a" "lv_label" "label" [] .nil)
            "parent" "    " false 0
          = (nodeOwnCode ⟨"lv_label", "Label", false, "lv_label_create"⟩
              (LvglNode.mk "a" "lv_label" "label" [] .nil) "parent" "    " false
              (LvglNode.mk "a" "lv_label" "label" [] .nil).name ++ "\n" ++ rest, counter1) :=
  ⟨by decide, by decide,
   c9_parsed_siblings_tag_names.2 (LvglNode.mk "a" "lv_label" "label" [] .nil)
     "parent" "    " false 0 ⟨"lv_label", "Label", false, "lv_label_create"⟩
     (by decide) (by decide)⟩

/-- Claim C2: attributes other than the reserved `id` and `name` become the
properties of the parsed node (in order, none dropped or added), and the
textual value coercion types `true`/`false` as booleans, numeric-looking
strings as numbers, and leaves every other string a string. -/
theorem c2_attribute_coercion :
    (∀ (tag : String) (attrs : List (String × Scalar)) (ces : RawElems) (supply : Nat),
      (parseNodeM (.mk tag attrs ces) supply).1.properties
        = attrs.filter (fun kv => !(kv.1 = "id" || kv.1 = "name")))
    ∧ coerceValue "true" = .bool true
    ∧ coerceValue "false" = .bool false
    ∧ (∀ s : String, isNumericChars s.data = true → coerceValue s = .num (charsToInt s.data))
    ∧ (∀ s : String, isNumericChars s.data = false → ¬(s = "true") → ¬(s = "false") →
        coerceValue s = .str s) := by
  refine ⟨?_, rfl, rfl, ?_, ?_⟩
  · intro tag attrs ces supply
    rfl
  · intro s h
    unfold coerceValue
    rw [if_neg, if_neg, if_pos h]
    · intro hs
      rw [hs] at h
      exact absurd h (by decide)
    · intro hs
      rw [hs] at h
      exact absurd h (by decide)
  · intro s h h1 h2
    unfold coerceValue
    rw [if_neg h1, if_neg h2, if_neg]
    rw [h]
    simp

/-- Witness for C2: the coercion at concrete values — `"42"` becomes the
number 42, `"true"` the boolean, `"-7"` the number -7, `"hello"` and `"1.5"`
stay strings; and a concrete element's attributes minus `id`/`name` are its
properties. -/
theorem c2_attribute_coercion_witness :
    (parseNodeM (.mk "label" [("id", .str "a"), ("text", .str "Hi"), ("x", .num 4)] .nil) 0).1.properties
      = [("text", Scalar.str "Hi"), ("x", Scalar.num 4)]
    ∧ coerceValue "42" = .num 42
    ∧ coerceValue "-7" = .num (-7)
    ∧ coerceValue "hello" = .str "hello"
    ∧ coerceValue "1.5" = .str "1.5" :=
  ⟨by
    rw [c2_attribute_coercion.1 "label" [("id", .str "a"), ("text", .str "Hi"), ("x", .num 4)]
      .nil 0]
    decide,
   by
    rw [c2_attribute_coercion.2.2.2.1 "42" (by decide)]
    decide,
   by
    rw [c2_attribute_coercion.2.2.2.1 "-7" (by decide)]
    decide,
   by
    rw [c2_attribute_coercion.2.2.2.2 "hello" (by decide) (by decide) (by decide)],
   by
    rw [c2_attribute_coercion.2.2.2.2 "1.5" (by decide) (by decide) (by decide)]⟩

theorem dropWhile_all_nil {p : Char → Bool} (l : List Char) (h : l.all p = true) :
    l.dropWhile p = [] := by
  induction l with
  | nil => rfl
  | cons c cs ih =>
    simp only [List.all_cons, Bool.and_eq_true] at h
    simp [List.dropWhile, h.1, ih h.2]

/-- Claim C4: `parseXmlToNodes` is total (it is a function into forests, never
an exception): whitespace-only input — the empty string included — yields the
empty forest, and any input the markup reader cannot read (the condition the
source's `try`/`catch` swallows) yields the empty forest as well; `"<lvgl><oops"`
is such an input. -/
theorem c4_lenient_parsing :
    (∀ (s : String) (supply : Nat), s.data.all isWsChar = true →
      parseXmlToNodes s supply = .nil)
    ∧ (∀ (s : String) (supply : Nat), xmlParseDoc s.data = none →
      parseXmlToNodes s supply = .nil)
    ∧ (∀ supply : Nat, parseXmlToNodes "<lvgl><oops" supply = .nil) := by
  refine ⟨?_, ?_, ?_⟩
  · intro s supply h
    have hd : s.data.dropWhile isWsChar = [] := dropWhile_all_nil _ h
    simp only [parseXmlToNodes, xmlParseDoc, parseTopElems, hd]
    rfl
  · intro s supply h
    simp only [parseXmlToNodes, h]
  · intro supply
    rfl

/-- Witness for C4: the empty string, a whitespace-only string, a concretely
unreadable string through the second part, and the malformed example. -/
theorem c4_lenient_parsing_witness :
    parseXmlToNodes "" 3 = .nil
    ∧ parseXmlToNodes " \n  " 3 = .nil
    ∧ parseXmlToNodes "<a" 3 = .nil
    ∧ parseXmlToNodes "<lvgl><oops" 5 = .nil :=
  ⟨c4_lenient_parsing.1 "" 3 (by decide),
   c4_lenient_parsing.1 " \n  " 3 (by decide),
   c4_lenient_parsing.2.1 "<a" 3 rfl,
   c4_lenient_parsing.2.2 5⟩

theorem strNil_append (s : String) : "" ++ s = s := by
  cases s
  rfl

theorem strData_append (a b : String) : (a ++ b).data = a.data ++ b.data :=
  String.data_append a b

theorem endsNl_append (a b : List Char) (hb : b ≠ []) : endsNl (a ++ b) = endsNl b := by
  induction a with
  | nil => rfl
  | cons c cs ih =>
    cases cs with
    | nil =>
      cases b with
      | nil => exact absurd rfl hb
      | cons d ds => simp [endsNl]
    | cons c2 cs2 =>
      simpa [endsNl, hb] using ih

theorem endsNlStr_append (a b : String) (hb : endsNl b.data = true) :
    endsNl (a ++ b).data = true := by
  rw [strData_append, endsNl_append]
  · exact hb
  · intro h
    rw [h] at hb
    exact absurd hb (by decide)

theorem linesOf_ne_nil (a : List Char) (h : a ≠ []) : linesOf a ≠ [] := by
  cases a with
  | nil => exact absurd rfl h
  | cons c cs =>
    rw [linesOf]
    by_cases hc : c = '\n'
    · simp [hc]
    · rw [if_neg hc]
      cases hl : linesOf cs <;> simp

theorem linesOf_append (a b : List Char) (h : endsNl a = true) :
    linesOf (a ++ b) = linesOf a ++ linesOf b := by
  induction a with
  | nil => exact absurd h (by decide)
  | cons c cs ih =>
    cases cs with
    | nil =>
      rw [endsNl] at h
      simp only [List.isEmpty_nil, if_true, decide_eq_true_eq] at h
      subst h
      simp [linesOf]
    | cons c2 cs2 =>
      rw [endsNl] at h
      simp only [List.isEmpty_cons, if_false] at h
      have hne : linesOf (c2 :: cs2) ≠ [] := linesOf_ne_nil _ (by simp)
      by_cases hc : c = '\n'
      · subst hc
        rw [List.cons_append, linesOf, if_pos rfl, linesOf, if_pos rfl, ih h]
        simp
      · rw [List.cons_append, linesOf, if_neg hc, ih h]
        conv_rhs => rw [linesOf, if_neg hc]
        cases hl : linesOf (c2 :: cs2) with
        | nil => exact absurd hl hne
        | cons l ls => simp

theorem linesOf_glue (l : List Char) (rest : List Char)
    (h : l.all (fun c => !(c = '\n')) = true) :
    linesOf (l ++ '\n' :: rest) = l :: linesOf rest := by
  induction l with
  | nil =>
    rw [List.nil_append, linesOf, if_pos rfl]
  | cons c cs ih =>
    simp only [List.all_cons, Bool.and_eq_true, Bool.not_eq_true', decide_eq_false_iff_not] at h
    rw [List.cons_append, linesOf, if_neg h.1, ih h.2]

theorem codeLines_append (a b : String) (h : endsNl a.data = true) :
    codeLines (a ++ b) = codeLines a ++ codeLines b := by
  unfold codeLines
  rw [strData_append, linesOf_append _ _ h, List.filter_append]

theorem codeLines_line_cons (l rest : String) (h : noNlStr l = true) :
    codeLines (l ++ ("\n" ++ rest))
      = (if !isCommentLine l.data && !isBlankLine l.data then [l.data] else [])
        ++ codeLines rest := by
  have hd : (l ++ ("\n" ++ rest)).data = l.data ++ '\n' :: rest.data := by
    rw [strData_append, strData_append]
    rfl
  unfold codeLines
  rw [hd, linesOf_glue _ _ h, List.filter_cons]
  by_cases hb : (!isCommentLine l.data && !isBlankLine l.data) = true
  · simp [hb]
  · rw [Bool.not_eq_true] at hb
    simp [hb]

theorem codeLines_last_line (l : String) (h : noNlStr l = true) :
    codeLines (l ++ "\n")
      = if !isCommentLine l.data && !isBlankLine l.data then [l.data] else [] := by
  have hd : (l ++ "\n").data = l.data ++ '\n' :: [] := by
    rw [strData_append]
  unfold codeLines
  rw [hd, linesOf_glue _ _ h]
  rw [show linesOf [] = [] from rfl, List.filter_cons]
  by_cases hb : (!isCommentLine l.data && !isBlankLine l.data) = true
  · simp [hb]
  · rw [Bool.not_eq_true] at hb
    simp [hb]

theorem noNlStr_append (a b : String) : noNlStr (a ++ b) = (noNlStr a && noNlStr b) := by
  unfold noNlStr
  rw [strData_append, List.all_append]

theorem dropWhile_append_all {p : Char → Bool} (a r : List Char) (h : a.all p = true) :
    (a ++ r).dropWhile p = r.dropWhile p := by
  induction a with
  | nil => rfl
  | cons c cs ih =>
    simp only [List.all_cons, Bool.and_eq_true] at h
    rw [List.cons_append, List.dropWhile_cons, if_pos h.1, ih h.2]

theorem charOfNat_toNat (n : Nat) (h : n < 1000) : (Char.ofNat n).toNat = n := by
  unfold Char.ofNat
  split
  · rfl
  · next hv =>
    exact absurd (Or.inl (by omega)) hv

theorem upChar_ne_nl (c : Char) (h : ¬(c = '\n')) : ¬(upChar c = '\n') := by
  unfold upChar
  split
  · next hr =>
    simp only [Bool.and_eq_true, decide_eq_true_eq] at hr
    intro he
    have ht : (Char.ofNat (c.toNat - 32)).toNat = c.toNat - 32 :=
      charOfNat_toNat _ (by omega)
    rw [he] at ht
    rw [show ('\n').toNat = 10 from rfl] at ht
    omega
  · exact h

theorem downChar_ne_nl (c : Char) (h : ¬(c = '\n')) : ¬(downChar c = '\n') := by
  unfold downChar
  split
  · next hr =>
    simp only [Bool.and_eq_true, decide_eq_true_eq] at hr
    intro he
    have ht : (Char.ofNat (c.toNat + 32)).toNat = c.toNat + 32 :=
      charOfNat_toNat _ (by omega)
    rw [he] at ht
    rw [show ('\n').toNat = 10 from rfl] at ht
    omega
  · exact h

theorem noNlStr_jsUpper (s : String) (h : noNlStr s = true) :
    noNlStr (jsUpper s) = true := by
  unfold noNlStr jsUpper at *
  rw [show (⟨s.data.map upChar⟩ : String).data = s.data.map upChar from rfl, List.all_map]
  rw [List.all_eq_true] at h ⊢
  intro c hc
  simp only [Function.comp_apply, Bool.not_eq_true', decide_eq_false_iff_not]
  exact upChar_ne_nl c (by simpa using h c hc)

theorem noNlStr_jsLower (s : String) (h : noNlStr s = true) :
    noNlStr (jsLower s) = true := by
  unfold noNlStr jsLower at *
  rw [show (⟨s.data.map downChar⟩ : String).data = s.data.map downChar from rfl, List.all_map]
  rw [List.all_eq_true] at h ⊢
  intro c hc
  simp only [Function.comp_apply, Bool.not_eq_true', decide_eq_false_iff_not]
  exact downChar_ne_nl c (by simpa using h c hc)

theorem registry_displayName_noNl (ty : String) (cdef : LvglComponent)
    (h : getComponentByType ty = some cdef) : noNlStr cdef.displayName = true := by
  have hmem : cdef ∈ lvglComponents := List.mem_of_find?_eq_some h
  have hall : lvglComponents.all (fun c => noNlStr c.displayName) = true := by decide
  exact List.all_eq_true.mp hall cdef hmem

theorem digitChar_ne_nl (n : Nat) (h : n < 10) : ¬(digitChar n = '\n') := by
  intro he
  have ht : (Char.ofNat (48 + n)).toNat = 48 + n := charOfNat_toNat _ (by omega)
  unfold digitChar at he
  rw [he] at ht
  rw [show ('\n').toNat = 10 from rfl] at ht
  omega

theorem natDecimalAux_noNl (fuel n : Nat) :
    (natDecimalAux fuel n).all (fun c => !(c = '\n')) = true := by
  induction fuel generalizing n with
  | zero => rfl
  | succ f ih =>
    rw [natDecimalAux]
    split
    · next hlt =>
      simp only [List.all_cons, List.all_nil, Bool.and_true, Bool.not_eq_true',
        decide_eq_false_iff_not]
      exact digitChar_ne_nl n hlt
    · rw [List.all_append, ih]
      simp only [Bool.true_and, List.all_cons, List.all_nil, Bool.and_true,
        Bool.not_eq_true', decide_eq_false_iff_not]
      exact digitChar_ne_nl _ (Nat.mod_lt _ (by omega))

theorem natDecimal_noNl (n : Nat) : noNlStr (natDecimal n) = true :=
  natDecimalAux_noNl (n + 1) n

theorem stripLvData_all {p : Char → Bool} (cs : List Char) (h : cs.all p = true) :
    (stripLvData cs).all p = true := by
  induction cs using stripLvData.induct with
  | case1 => rfl
  | case2 rest =>
    simp only [List.all_cons, Bool.and_eq_true] at h
    exact h.2.2.2
  | case3 c rest h1 ih =>
    have hcr : stripLvData (c :: rest) = c :: stripLvData rest := by
      rw [stripLvData.eq_def]
      split
      · next heq => exact absurd heq (by simp)
      · next r2 heq =>
        exfalso
        rw [List.cons_eq_cons] at heq
        exact h1 r2 heq.1 heq.2
      · next c2 r2 hne heq =>
        rw [List.cons_eq_cons] at heq
        rw [heq.1, heq.2]
    rw [hcr]
    simp only [List.all_cons, Bool.and_eq_true] at h ⊢
    exact ⟨h.1, ih h.2⟩

theorem noNlStr_stripLv (s : String) (h : noNlStr s = true) :
    noNlStr (stripLv s) = true :=
  stripLvData_all s.data h

theorem strAppend_empty (s : String) : s ++ "" = s := by
  cases s with
  | mk d =>
    show String.mk (d ++ []) = String.mk d
    rw [List.append_nil]

theorem spaces_all_ws (a : List Char) (h : a.all (fun ch => ch = ' ') = true) :
    a.all isWsChar = true := by
  rw [List.all_eq_true] at h ⊢
  intro c hc
  have := h c hc
  simp only [decide_eq_true_eq] at this
  subst this
  decide

theorem spaces_all_noNl (a : List Char) (h : a.all (fun ch => ch = ' ') = true) :
    a.all (fun c => !(c = '\n')) = true := by
  rw [List.all_eq_true] at h ⊢
  intro c hc
  have := h c hc
  simp only [decide_eq_true_eq] at this
  subst this
  decide

theorem endsNl_lit_nl : endsNl ("\n" : String).data = true := by decide

mutual
theorem genCC_endsNl (node : LvglNode) (pv ind : String) (gc : Bool) (c : Nat) :
    endsNl ((generateComponentCode node pv ind gc c).1).data = true := by
  cases node with
  | mk i ty nm props children =>
    cases hcd : getComponentByType ty with
    | none =>
      simp only [generateComponentCode, hcd]
      exact endsNlStr_append _ _ endsNl_lit_nl
    | some cdef =>
      simp only [generateComponentCode, hcd]
      rcases genFC_endsNl children
          (if nm = "" then stripLv ty ++ "_" ++ natDecimal (c + 1) else nm) ind gc
          (if nm = "" then c + 1 else c) with h | h
      · rw [h, strAppend_empty]
        exact endsNlStr_append _ _ endsNl_lit_nl
      · exact endsNlStr_append _ _ h
theorem genFC_endsNl (f : LvglForest) (pv ind : String) (gc : Bool) (c : Nat) :
    (generateForestCode f pv ind gc c).1 = ""
    ∨ endsNl ((generateForestCode f pv ind gc c).1).data = true := by
  cases f with
  | nil => exact Or.inl rfl
  | cons n rest =>
    simp only [generateForestCode]
    rcases genFC_endsNl rest pv ind gc
        (generateComponentCode n pv ind gc c).2 with h | h
    · rw [h, strAppend_empty]
      exact Or.inr (genCC_endsNl n pv ind gc c)
    · exact Or.inr (endsNlStr_append _ _ h)
end

theorem codeLines_create_comment (ind dn vn : String)
    (hind : ind.data.all (fun ch => ch = ' ') = true)
    (hdn : noNlStr dn = true) (hvn : noNlStr vn = true) :
    codeLines (ind ++ "/* Create " ++ dn ++ ": " ++ vn ++ " */\n") = [] := by
  have hassoc : ind ++ "/* Create " ++ dn ++ ": " ++ vn ++ " */\n"
      = ind ++ ("/* Create " ++ (dn ++ (": " ++ (vn ++ " */\n")))) := by
    simp only [strAppend_assoc]
  rw [hassoc]
  have e1 : (" */" ++ "\n" : String) = " */\n" := rfl
  have hform : ind ++ ("/* Create " ++ (dn ++ (": " ++ (vn ++ " */\n"))))
      = (ind ++ ("/* Create " ++ (dn ++ (": " ++ (vn ++ " */"))))) ++ "\n" := by
    simp only [strAppend_assoc, e1]
  rw [hform]
  have hnl : noNlStr (ind ++ ("/* Create " ++ (dn ++ (": " ++ (vn ++ " */"))))) = true := by
    simp only [noNlStr, strData_append, List.all_append, Bool.and_eq_true] at *
    refine ⟨spaces_all_noNl _ hind, by decide, hdn, by decide, hvn, by decide⟩
  rw [codeLines_last_line _ hnl]
  have hcomm : isCommentLine (ind ++ ("/* Create " ++ (dn ++ (": " ++ (vn ++ " */"))))).data
      = true := by
    unfold isCommentLine trimHead
    rw [strData_append, dropWhile_append_all _ _ (spaces_all_ws _ hind)]
    rfl
  rw [hcomm]
  rfl

theorem codeLines_empty : codeLines "" = [] := rfl

theorem codeLines_comment_chunk (pre : String)
    (h2 : (linesOf pre.data).all (fun l => isCommentLine l || isBlankLine l) = true) :
    codeLines pre = [] := by
  unfold codeLines
  rw [List.filter_eq_nil_iff]
  intro l hl
  have := List.all_eq_true.mp h2 l hl
  simp only [Bool.or_eq_true] at this
  rcases this with h | h <;> simp [h]

theorem codeLines_peel_drop (l rest : String) (hl : noNlStr l = true)
    (hc : (!isCommentLine l.data && !isBlankLine l.data) = false) :
    codeLines (l ++ ("\n" ++ rest)) = codeLines rest := by
  rw [codeLines_line_cons _ _ hl, hc]
  rfl

theorem codeLines_peel_keep (l rest : String) (hl : noNlStr l = true)
    (hc : (!isCommentLine l.data && !isBlankLine l.data) = true) :
    codeLines (l ++ ("\n" ++ rest)) = l.data :: codeLines rest := by
  rw [codeLines_line_cons _ _ hl, hc]
  rfl

theorem codeLines_header_doc (low scr : String)
    (hlow : noNlStr low = true) (hscr : noNlStr scr = true) :
    codeLines ("/**\n * @file " ++ low ++ ".h\n * @brief " ++ scr
      ++ " screen header\n * @note Auto-generated by LVGL Builder\n */\n\n") = [] := by
  have hform : ("/**\n * @file " ++ low ++ ".h\n * @brief " ++ scr
      ++ " screen header\n * @note Auto-generated by LVGL Builder\n */\n\n" : String)
      = "/**" ++ ("\n" ++ ((" * @file " ++ (low ++ ".h")) ++ ("\n"
        ++ ((" * @brief " ++ (scr ++ " screen header")) ++ ("\n"
        ++ (" * @note Auto-generated by LVGL Builder" ++ ("\n"
        ++ (" */" ++ ("\n" ++ ("" ++ ("\n" ++ ""))))))))))) := by
    simp only [strAppend_assoc, strNil_append]
    rfl
  rw [hform]
  rw [codeLines_peel_drop _ _ (by decide) (by decide)]
  rw [codeLines_peel_drop (" * @file " ++ (low ++ ".h")) _ ?h1 rfl]
  case h1 =>
    rw [noNlStr_append, noNlStr_append, hlow]
    decide
  rw [codeLines_peel_drop (" * @brief " ++ (scr ++ " screen header")) _ ?h2 rfl]
  case h2 =>
    rw [noNlStr_append, noNlStr_append, hscr]
    decide
  rw [codeLines_peel_drop _ _ (by decide) (by decide)]
  rw [codeLines_peel_drop _ _ (by decide) (by decide)]
  rw [codeLines_peel_drop _ _ (by decide) (by decide)]
  exact codeLines_empty

theorem codeLines_source_doc (low scr : String)
    (hlow : noNlStr low = true) (hscr : noNlStr scr = true) :
    codeLines ("/**\n * @file " ++ low ++ ".c\n * @brief " ++ scr
      ++ " screen implementation\n * @note Auto-generated by LVGL Builder\n */\n\n") = [] := by
  have hform : ("/**\n * @file " ++ low ++ ".c\n * @brief " ++ scr
      ++ " screen implementation\n * @note Auto-generated by LVGL Builder\n */\n\n" : String)
      = "/**" ++ ("\n" ++ ((" * @file " ++ (low ++ ".c")) ++ ("\n"
        ++ ((" * @brief " ++ (scr ++ " screen implementation")) ++ ("\n"
        ++ (" * @note Auto-generated by LVGL Builder" ++ ("\n"
        ++ (" */" ++ ("\n" ++ ("" ++ ("\n" ++ ""))))))))))) := by
    simp only [strAppend_assoc, strNil_append]
    rfl
  rw [hform]
  rw [codeLines_peel_drop _ _ (by decide) (by decide)]
  rw [codeLines_peel_drop (" * @file " ++ (low ++ ".c")) _ ?h1 rfl]
  case h1 =>
    rw [noNlStr_append, noNlStr_append, hlow]
    decide
  rw [codeLines_peel_drop (" * @brief " ++ (scr ++ " screen implementation")) _ ?h2 rfl]
  case h2 =>
    rw [noNlStr_append, noNlStr_append, hscr]
    decide
  rw [codeLines_peel_drop _ _ (by decide) (by decide)]
  rw [codeLines_peel_drop _ _ (by decide) (by decide)]
  rw [codeLines_peel_drop _ _ (by decide) (by decide)]
  exact codeLines_empty

theorem codeLines_create_doc (scr : String) (hscr : noNlStr scr = true) :
    codeLines ("/**\n * Create the " ++ scr
      ++ " screen\n * @param parent pointer to parent object\n */\n") = [] := by
  have hform : ("/**\n * Create the " ++ scr
      ++ " screen\n * @param parent pointer to parent object\n */\n" : String)
      = "/**" ++ ("\n" ++ ((" * Create the " ++ (scr ++ " screen")) ++ ("\n"
        ++ (" * @param parent pointer to parent object" ++ ("\n"
        ++ (" */" ++ ("\n" ++ ""))))))) := by
    simp only [strAppend_assoc, strNil_append]
    rfl
  rw [hform]
  rw [codeLines_peel_drop _ _ (by decide) (by decide)]
  rw [codeLines_peel_drop (" * Create the " ++ (scr ++ " screen")) _ ?h1 rfl]
  case h1 =>
    rw [noNlStr_append, noNlStr_append, hscr]
    decide
  rw [codeLines_peel_drop _ _ (by decide) (by decide)]
  rw [codeLines_peel_drop _ _ (by decide) (by decide)]
  exact codeLines_empty

theorem genCC_unknown (i ty nm : String) (props : List (String × Scalar))
    (children : LvglForest) (pv ind : String) (gc : Bool) (c : Nat)
    (h : getComponentByType ty = none) :
    generateComponentCode (.mk i ty nm props children) pv ind gc c
      = (ind ++ "// Unknown component type: " ++ ty ++ "\n", c) := by
  simp only [generateComponentCode, h]

theorem genCC_known (i ty nm : String) (props : List (String × Scalar))
    (children : LvglForest) (pv ind : String) (gc : Bool) (c : Nat)
    (cdef : LvglComponent) (h : getComponentByType ty = some cdef) :
    generateComponentCode (.mk i ty nm props children) pv ind gc c
      = (nodeOwnCode cdef (.mk i ty nm props children) pv ind gc
          (if nm = "" then stripLv ty ++ "_" ++ natDecimal (c + 1) else nm)
        ++ "\n"
        ++ (generateForestCode children
            (if nm = "" then stripLv ty ++ "_" ++ natDecimal (c + 1) else nm)
            ind gc (if nm = "" then c + 1 else c)).1,
       (generateForestCode children
            (if nm = "" then stripLv ty ++ "_" ++ natDecimal (c + 1) else nm)
            ind gc (if nm = "" then c + 1 else c)).2) := by
  simp only [generateComponentCode, h]

theorem genFC_cons (n : LvglNode) (rest : LvglForest) (pv ind : String)
    (gc : Bool) (c : Nat) :
    generateForestCode (.cons n rest) pv ind gc c
      = ((generateComponentCode n pv ind gc c).1
          ++ (generateForestCode rest pv ind gc
              (generateComponentCode n pv ind gc c).2).1,
         (generateForestCode rest pv ind gc
             (generateComponentCode n pv ind gc c).2).2) := by
  simp only [generateForestCode]

theorem codeLines_glue2 (a b a2 b2 : String)
    (ha : endsNl a.data = true) (ha2 : endsNl a2.data = true)
    (h1 : codeLines a = codeLines a2) (h2 : codeLines b = codeLines b2) :
    codeLines (a ++ b) = codeLines (a2 ++ b2) := by
  rw [codeLines_append _ _ ha, codeLines_append _ _ ha2, h1, h2]

theorem codeLines_create_comment_cont (ind dn vn R : String)
    (hind : ind.data.all (fun ch => ch = ' ') = true)
    (hdn : noNlStr dn = true) (hvn : noNlStr vn = true) :
    codeLines (ind ++ ("/* Create " ++ (dn ++ (": " ++ (vn ++ (" */\n" ++ R))))))
      = codeLines R := by
  have hform : ind ++ ("/* Create " ++ (dn ++ (": " ++ (vn ++ (" */\n" ++ R)))))
      = (ind ++ ("/* Create " ++ (dn ++ (": " ++ (vn ++ " */"))))) ++ ("\n" ++ R) := by
    simp only [strAppend_assoc]
    rfl
  have hL : noNlStr (ind ++ ("/* Create " ++ (dn ++ (": " ++ (vn ++ " */"))))) = true := by
    simp only [noNlStr, strData_append, List.all_append, Bool.and_eq_true] at *
    refine ⟨spaces_all_noNl _ hind, by decide, hdn, by decide, hvn, by decide⟩
  have hcomm : isCommentLine
      (ind ++ ("/* Create " ++ (dn ++ (": " ++ (vn ++ " */"))))).data = true := by
    unfold isCommentLine trimHead
    rw [strData_append, dropWhile_append_all _ _ (spaces_all_ws _ hind)]
    rfl
  rw [hform, codeLines_line_cons _ _ hL, hcomm]
  rfl

theorem codeLines_own (cdef : LvglComponent) (node : LvglNode) (pv ind vn : String)
    (hind : ind.data.all (fun ch => ch = ' ') = true)
    (hdn : noNlStr cdef.displayName = true) (hvn : noNlStr vn = true) :
    codeLines (nodeOwnCode cdef node pv ind true vn ++ "\n")
      = codeLines (nodeOwnCode cdef node pv ind false vn ++ "\n") := by
  unfold nodeOwnCode
  rw [if_pos rfl, if_neg (by decide)]
  simp only [strAppend_assoc, strNil_append]
  rw [codeLines_create_comment_cont ind cdef.displayName vn _ hind hdn hvn]

mutual
theorem genCC_lines (node : LvglNode) (pv ind : String) (c : Nat)
    (hn : nodeNoNl node = true) (hind : ind.data.all (fun ch => ch = ' ') = true) :
    codeLines (generateComponentCode node pv ind true c).1
      = codeLines (generateComponentCode node pv ind false c).1
    ∧ (generateComponentCode node pv ind true c).2
      = (generateComponentCode node pv ind false c).2 := by
  cases node with
  | mk i ty nm props children =>
    simp only [nodeNoNl, Bool.and_eq_true] at hn
    obtain ⟨⟨hty, hnm⟩, hch⟩ := hn
    cases hcd : getComponentByType ty with
    | none =>
      rw [genCC_unknown i ty nm props children pv ind true c hcd,
        genCC_unknown i ty nm props children pv ind false c hcd]
      exact ⟨rfl, rfl⟩
    | some cdef =>
      have hvn : noNlStr
          (if nm = "" then stripLv ty ++ "_" ++ natDecimal (c + 1) else nm) = true := by
        by_cases he : nm = ""
        · rw [if_pos he, noNlStr_append, noNlStr_append,
            noNlStr_stripLv ty hty, natDecimal_noNl]
          decide
        · rw [if_neg he]
          exact hnm
      have hIH := genFC_lines children
        (if nm = "" then stripLv ty ++ "_" ++ natDecimal (c + 1) else nm) ind
        (if nm = "" then c + 1 else c) hch hind
      rw [genCC_known i ty nm props children pv ind true c cdef hcd,
        genCC_known i ty nm props children pv ind false c cdef hcd]
      refine ⟨?_, hIH.2⟩
      exact codeLines_glue2 _ _ _ _
        (endsNlStr_append _ _ endsNl_lit_nl) (endsNlStr_append _ _ endsNl_lit_nl)
        (codeLines_own cdef (.mk i ty nm props children) pv ind _ hind
          (registry_displayName_noNl ty cdef hcd) hvn)
        hIH.1
theorem genFC_lines (f : LvglForest) (pv ind : String) (c : Nat)
    (hf : forestNoNl f = true) (hind : ind.data.all (fun ch => ch = ' ') = true) :
    codeLines (generateForestCode f pv ind true c).1
      = codeLines (generateForestCode f pv ind false c).1
    ∧ (generateForestCode f pv ind true c).2
      = (generateForestCode f pv ind false c).2 := by
  cases f with
  | nil => exact ⟨rfl, rfl⟩
  | cons n rest =>
    simp only [forestNoNl, Bool.and_eq_true] at hf
    have hn1 := genCC_lines n pv ind c hf.1 hind
    rw [genFC_cons n rest pv ind true c, genFC_cons n rest pv ind false c, hn1.2]
    have hrest := genFC_lines rest pv ind (generateComponentCode n pv ind false c).2
      hf.2 hind
    refine ⟨?_, hrest.2⟩
    exact codeLines_glue2 _ _ _ _
      (genCC_endsNl n pv ind true c) (genCC_endsNl n pv ind false c)
      hn1.1 hrest.1
end

set_option maxRecDepth 16000 in
theorem c10_header_lines (s : String) (hs : noNlStr s = true) :
    codeLines (headerText s true) = codeLines (headerText s false) := by
  have hup := noNlStr_jsUpper s hs
  have hlow := noNlStr_jsLower s hs
  have hT : headerText s true
      = ("/**" ++ ("\n" ++ ((" * @file " ++ (jsLower s ++ ".h")) ++ ("\n" ++ ((" * @brief " ++ (s ++ " screen header")) ++ ("\n" ++ (" * @note Auto-generated by LVGL Builder" ++ ("\n" ++ (" */" ++ ("\n" ++ ("" ++ ("\n" ++ (("#ifndef " ++ (jsUpper s ++ "_H")) ++ ("\n" ++ (("#define " ++ (jsUpper s ++ "_H")) ++ ("\n" ++ ("" ++ ("\n" ++ ("/*********************" ++ ("\n" ++ (" *      INCLUDES" ++ ("\n" ++ (" *********************/" ++ ("\n" ++ ("#include \"lvgl.h\"" ++ ("\n" ++ ("" ++ ("\n" ++ ("/*********************" ++ ("\n" ++ (" *      DEFINES" ++ ("\n" ++ (" *********************/" ++ ("\n" ++ ("" ++ ("\n" ++ ("/**********************" ++ ("\n" ++ (" * GLOBAL PROTOTYPES" ++ ("\n" ++ (" **********************/" ++ ("\n" ++ (("void " ++ (jsLower s ++ "_create(lv_obj_t *parent);")) ++ ("\n" ++ ("" ++ ("\n" ++ (("#endif /* " ++ (jsUpper s ++ "_H */")) ++ ("\n" ++ "")))))))))))))))))))))))))))))))))))))))))))))))) := by
    unfold headerText
    rw [if_pos rfl, if_pos rfl, if_pos rfl]
    simp only [strAppend_assoc]
    rfl
  have hF : headerText s false
      = (("#ifndef " ++ (jsUpper s ++ "_H")) ++ ("\n" ++ (("#define " ++ (jsUpper s ++ "_H")) ++ ("\n" ++ ("" ++ ("\n" ++ ("#include \"lvgl.h\"" ++ ("\n" ++ ("" ++ ("\n" ++ (("void " ++ (jsLower s ++ "_create(lv_obj_t *parent);")) ++ ("\n" ++ ("" ++ ("\n" ++ (("#endif /* " ++ (jsUpper s ++ "_H */")) ++ ("\n" ++ "")))))))))))))))) := by
    unfold headerText
    rw [if_neg (by decide), if_neg (by decide), if_neg (by decide)]
    simp only [strAppend_assoc, strNil_append]
    rfl
  rw [hT, hF]
  rw [codeLines_peel_drop _ _ (by decide) (by decide)]
  rw [codeLines_peel_drop (" * @file " ++ (jsLower s ++ ".h")) _ (by simp only [noNlStr_append, hup, hlow, hs]; decide) rfl]
  rw [codeLines_peel_drop (" * @brief " ++ (s ++ " screen header")) _ (by simp only [noNlStr_append, hup, hlow, hs]; decide) rfl]
  rw [codeLines_peel_drop _ _ (by decide) (by decide)]
  rw [codeLines_peel_drop _ _ (by decide) (by decide)]
  rw [codeLines_peel_drop _ _ (by decide) (by decide)]
  rw [codeLines_peel_keep ("#ifndef " ++ (jsUpper s ++ "_H")) _ (by simp only [noNlStr_append, hup, hlow, hs]; decide) rfl]
  rw [codeLines_peel_keep ("#define " ++ (jsUpper s ++ "_H")) _ (by simp only [noNlStr_append, hup, hlow, hs]; decide) rfl]
  rw [codeLines_peel_drop _ _ (by decide) (by decide)]
  rw [codeLines_peel_drop _ _ (by decide) (by decide)]
  rw [codeLines_peel_drop _ _ (by decide) (by decide)]
  rw [codeLines_peel_drop _ _ (by decide) (by decide)]
  rw [codeLines_peel_keep _ _ (by decide) (by decide)]
  rw [codeLines_peel_drop _ _ (by decide) (by decide)]
  rw [codeLines_peel_drop _ _ (by decide) (by decide)]
  rw [codeLines_peel_drop _ _ (by decide) (by decide)]
  rw [codeLines_peel_drop _ _ (by decide) (by decide)]
  rw [codeLines_peel_drop _ _ (by decide) (by decide)]
  rw [codeLines_peel_drop _ _ (by decide) (by decide)]
  rw [codeLines_peel_drop _ _ (by decide) (by decide)]
  rw [codeLines_peel_drop _ _ (by decide) (by decide)]
  rw [codeLines_peel_keep ("void " ++ (jsLower s ++ "_create(lv_obj_t *parent);")) _ (by simp only [noNlStr_append, hup, hlow, hs]; decide) rfl]
  rw [codeLines_peel_drop _ _ (by decide) (by decide)]
  rw [codeLines_peel_keep ("#endif /* " ++ (jsUpper s ++ "_H */")) _ (by simp only [noNlStr_append, hup, hlow, hs]; decide) rfl]
  rw [codeLines_peel_keep ("#ifndef " ++ (jsUpper s ++ "_H")) _ (by simp only [noNlStr_append, hup, hlow, hs]; decide) rfl]
  rw [codeLines_peel_keep ("#define " ++ (jsUpper s ++ "_H")) _ (by simp only [noNlStr_append, hup, hlow, hs]; decide) rfl]
  rw [codeLines_peel_drop _ _ (by decide) (by decide)]
  rw [codeLines_peel_keep _ _ (by decide) (by decide)]
  rw [codeLines_peel_drop _ _ (by decide) (by decide)]
  rw [codeLines_peel_keep ("void " ++ (jsLower s ++ "_create(lv_obj_t *parent);")) _ (by simp only [noNlStr_append, hup, hlow, hs]; decide) rfl]
  rw [codeLines_peel_drop _ _ (by decide) (by decide)]
  rw [codeLines_peel_keep ("#endif /* " ++ (jsUpper s ++ "_H */")) _ (by simp only [noNlStr_append, hup, hlow, hs]; decide) rfl]

theorem genFC_cons_endsNl (n : LvglNode) (rest : LvglForest) (pv ind : String)
    (gc : Bool) (c : Nat) :
    endsNl ((generateForestCode (.cons n rest) pv ind gc c).1).data = true := by
  rw [genFC_cons]
  rcases genFC_endsNl rest pv ind gc (generateComponentCode n pv ind gc c).2 with h | h
  · rw [h, strAppend_empty]
    exact genCC_endsNl n pv ind gc c
  · exact endsNlStr_append _ _ h

theorem c10_source_tail :
    codeLines ("\x7d" ++ ("\n" ++ ("" ++ ("\n" ++ ("/**********************" ++ ("\n" ++ (" *  STATIC FUNCTIONS" ++ ("\n" ++ (" **********************/" ++ ("\n" ++ ""))))))))))
      = codeLines ("\x7d" ++ ("\n" ++ "")) := by
  decide

set_option maxRecDepth 32000 in
theorem c10_source_lines (rootNodes : LvglForest) (s : String)
    (hf : forestNoNl rootNodes = true) (hs : noNlStr s = true) :
    codeLines (sourceText rootNodes s true) = codeLines (sourceText rootNodes s false) := by
  have hlow := noNlStr_jsLower s hs
  have hT : sourceText rootNodes s true
      = ("/**" ++ ("\n" ++ ((" * @file " ++ (jsLower s ++ ".c")) ++ ("\n" ++ ((" * @brief " ++ (s ++ " screen implementation")) ++ ("\n" ++ (" * @note Auto-generated by LVGL Builder" ++ ("\n" ++ (" */" ++ ("\n" ++ ("" ++ ("\n" ++ ("/*********************" ++ ("\n" ++ (" *      INCLUDES" ++ ("\n" ++ (" *********************/" ++ ("\n" ++ (("#include \"" ++ (jsLower s ++ ".h\"")) ++ ("\n" ++ ("" ++ ("\n" ++ ("/*********************" ++ ("\n" ++ (" *      DEFINES" ++ ("\n" ++ (" *********************/" ++ ("\n" ++ ("" ++ ("\n" ++ ("/**********************" ++ ("\n" ++ (" *  STATIC VARIABLES" ++ ("\n" ++ (" **********************/" ++ ("\n" ++ ("" ++ ("\n" ++ ("/**********************" ++ ("\n" ++ (" *  STATIC PROTOTYPES" ++ ("\n" ++ (" **********************/" ++ ("\n" ++ ("" ++ ("\n" ++ ("/**********************" ++ ("\n" ++ (" * GLOBAL FUNCTIONS" ++ ("\n" ++ (" **********************/" ++ ("\n" ++ ("" ++ ("\n" ++ ("/**" ++ ("\n" ++ ((" * Create the " ++ (s ++ " screen")) ++ ("\n" ++ (" * @param parent pointer to parent object" ++ ("\n" ++ (" */" ++ ("\n" ++ (("void " ++ (jsLower s ++ "_create(lv_obj_t *parent)")) ++ ("\n" ++ ("\x7b" ++ ("\n" ++ ((generateForestCode rootNodes "parent" "    " true 0).1 ++ ("\x7d" ++ ("\n" ++ ("" ++ ("\n" ++ ("/**********************" ++ ("\n" ++ (" *  STATIC FUNCTIONS" ++ ("\n" ++ (" **********************/" ++ ("\n" ++ ""))))))))))))))))))))))))))))))))))))))))))))))))))))))))))))))))))))))))))))) := by
    unfold sourceText
    rw [if_pos rfl, if_pos rfl, if_pos rfl]
    simp only [strAppend_assoc]
    rfl
  have hF : sourceText rootNodes s false
      = (("#include \"" ++ (jsLower s ++ ".h\"")) ++ ("\n" ++ ("" ++ ("\n" ++ (("void " ++ (jsLower s ++ "_create(lv_obj_t *parent)")) ++ ("\n" ++ ("\x7b" ++ ("\n" ++ ((generateForestCode rootNodes "parent" "    " false 0).1 ++ ("\x7d" ++ ("\n" ++ ""))))))))))) := by
    unfold sourceText
    rw [if_neg (by decide), if_neg (by decide), if_neg (by decide)]
    simp only [strAppend_assoc, strNil_append]
    rfl
  rw [hT, hF]
  rw [codeLines_peel_drop _ _ (by decide) (by decide)]
  rw [codeLines_peel_drop (" * @file " ++ (jsLower s ++ ".c")) _ (by simp only [noNlStr_append, hlow, hs]; decide) rfl]
  rw [codeLines_peel_drop (" * @brief " ++ (s ++ " screen implementation")) _ (by simp only [noNlStr_append, hlow, hs]; decide) rfl]
  rw [codeLines_peel_drop _ _ (by decide) (by decide)]
  rw [codeLines_peel_drop _ _ (by decide) (by decide)]
  rw [codeLines_peel_drop _ _ (by decide) (by decide)]
  rw [codeLines_peel_drop _ _ (by decide) (by decide)]
  rw [codeLines_peel_drop _ _ (by decide) (by decide)]
  rw [codeLines_peel_drop _ _ (by decide) (by decide)]
  rw [codeLines_peel_keep ("#include \"" ++ (jsLower s ++ ".h\"")) _ (by simp only [noNlStr_append, hlow, hs]; decide) rfl]
  rw [codeLines_peel_drop _ _ (by decide) (by decide)]
  rw [codeLines_peel_drop _ _ (by decide) (by decide)]
  rw [codeLines_peel_drop _ _ (by decide) (by decide)]
  rw [codeLines_peel_drop _ _ (by decide) (by decide)]
  rw [codeLines_peel_drop _ _ (by decide) (by decide)]
  rw [codeLines_peel_drop _ _ (by decide) (by decide)]
  rw [codeLines_peel_drop _ _ (by decide) (by decide)]
  rw [codeLines_peel_drop _ _ (by decide) (by decide)]
  rw [codeLines_peel_drop _ _ (by decide) (by decide)]
  rw [codeLines_peel_drop _ _ (by decide) (by decide)]
  rw [codeLines_peel_drop _ _ (by decide) (by decide)]
  rw [codeLines_peel_drop _ _ (by decide) (by decide)]
  rw [codeLines_peel_drop _ _ (by decide) (by decide)]
  rw [codeLines_peel_drop _ _ (by decide) (by decide)]
  rw [codeLines_peel_drop _ _ (by decide) (by decide)]
  rw [codeLines_peel_drop _ _ (by decide) (by decide)]
  rw [codeLines_peel_drop _ _ (by decide) (by decide)]
  rw [codeLines_peel_drop _ _ (by decide) (by decide)]
  rw [codeLines_peel_drop (" * Create the " ++ (s ++ " screen")) _ (by simp only [noNlStr_append, hlow, hs]; decide) rfl]
  rw [codeLines_peel_drop _ _ (by decide) (by decide)]
  rw [codeLines_peel_drop _ _ (by decide) (by decide)]
  rw [codeLines_peel_keep ("void " ++ (jsLower s ++ "_create(lv_obj_t *parent)")) _ (by simp only [noNlStr_append, hlow, hs]; decide) rfl]
  rw [codeLines_peel_keep _ _ (by decide) (by decide)]
  rw [codeLines_peel_keep ("#include \"" ++ (jsLower s ++ ".h\"")) _ (by simp only [noNlStr_append, hlow, hs]; decide) rfl]
  rw [codeLines_peel_drop _ _ (by decide) (by decide)]
  rw [codeLines_peel_keep ("void " ++ (jsLower s ++ "_create(lv_obj_t *parent)")) _ (by simp only [noNlStr_append, hlow, hs]; decide) rfl]
  rw [codeLines_peel_keep _ _ (by decide) (by decide)]
  cases hrt : rootNodes with
  | nil =>
    rw [show (generateForestCode LvglForest.nil "parent" "    " true 0).1 = "" from rfl,
      show (generateForestCode LvglForest.nil "parent" "    " false 0).1 = "" from rfl]
    exact congrArg _ (congrArg _ (congrArg _ (by decide)))
  | cons n rest =>
    rw [codeLines_append _ _ (genFC_cons_endsNl n rest "parent" "    " true 0),
      codeLines_append _ _ (genFC_cons_endsNl n rest "parent" "    " false 0)]
    rw [hrt] at hf
    rw [(genFC_lines (LvglForest.cons n rest) "parent" "    " 0 hf (by decide)).1,
      c10_source_tail]


set_option maxRecDepth 16000 in
/-- C10: the claim that deleting every comment line from the flag-true output
yields exactly the flag-false output fails: the comment blocks are followed by
blank separator lines that the flag-false output does not carry, so even after
removing all comment lines the two header texts differ. -/
theorem c10_comment_only_cex :
    removeCommentLines ((generateCode LvglForest.nil "Main" true 0).1.headerContent)
      ≠ (generateCode LvglForest.nil "Main" false 0).1.headerContent := by
  decide

/-- C10 (amended): for every forest whose types and names are newline-free and
every newline-free screen name, the outputs of generateCode with the comments
flag true and false differ only by comment and blank lines: the non-comment,
non-blank lines of the flag-true header and source equal those of the
flag-false header and source, so the flag never changes any construction,
geometry, property, or framing statement. -/
theorem c10_flag_changes_only_comment_and_blank_lines (rootNodes : LvglForest)
    (s : String) (counterIn : Nat)
    (hf : forestNoNl rootNodes = true) (hs : noNlStr s = true) :
    codeLines ((generateCode rootNodes s true counterIn).1.headerContent)
      = codeLines ((generateCode rootNodes s false counterIn).1.headerContent)
    ∧ codeLines ((generateCode rootNodes s true counterIn).1.sourceContent)
      = codeLines ((generateCode rootNodes s false counterIn).1.sourceContent) :=
  ⟨c10_header_lines s hs, c10_source_lines rootNodes s hf hs⟩

set_option maxRecDepth 16000 in
/-- Concrete instantiation of the amended C10 theorem. -/
theorem c10_flag_changes_only_comment_and_blank_lines_witness :
    (forestNoNl LvglForest.nil = true ∧ noNlStr "Main" = true)
    ∧ (codeLines ((generateCode LvglForest.nil "Main" true 7).1.headerContent)
        = codeLines ((generateCode LvglForest.nil "Main" false 7).1.headerContent)
      ∧ codeLines ((generateCode LvglForest.nil "Main" true 7).1.sourceContent)
        = codeLines ((generateCode LvglForest.nil "Main" false 7).1.sourceContent)) :=
  ⟨⟨by decide, by decide⟩,
    c10_flag_changes_only_comment_and_blank_lines LvglForest.nil "Main" 7
      (by decide) (by decide)⟩




theorem strMk_data (s : String) : (⟨s.data⟩ : String) = s := by cases s; rfl

theorem takeWhile_all_stop (p : Char → Bool) :
    ∀ (xs : List Char) (y : Char) (ys : List Char), xs.all p = true → p y = false →
    (xs ++ y :: ys).takeWhile p = xs := by
  intro xs
  induction xs with
  | nil =>
    intro y ys _ hy
    simp [List.takeWhile, hy]
  | cons a as ih =>
    intro y ys hall hy
    simp only [List.all_cons, Bool.and_eq_true] at hall
    simp [List.takeWhile, hall.1, ih y ys hall.2 hy]

theorem dropWhile_all_stop (p : Char → Bool) :
    ∀ (xs : List Char) (y : Char) (ys : List Char), xs.all p = true → p y = false →
    (xs ++ y :: ys).dropWhile p = y :: ys := by
  intro xs
  induction xs with
  | nil =>
    intro y ys _ hy
    simp [List.dropWhile, hy]
  | cons a as ih =>
    intro y ys hall hy
    simp only [List.all_cons, Bool.and_eq_true] at hall
    simp [List.dropWhile, hall.1, ih y ys hall.2 hy]

theorem dropWhile_append_allP (p : Char → Bool) :
    ∀ (xs ys : List Char), xs.all p = true →
    (xs ++ ys).dropWhile p = ys.dropWhile p := by
  intro xs
  induction xs with
  | nil => intro ys _; rfl
  | cons a as ih =>
    intro ys hall
    simp only [List.all_cons, Bool.and_eq_true] at hall
    simp [List.dropWhile, hall.1, ih ys hall.2]

theorem dropWhile_not_head (p : Char → Bool) (c : Char) (cs : List Char)
    (h : p c = false) : (c :: cs).dropWhile p = c :: cs := by
  simp [List.dropWhile, h]

theorem nameOk_not_ws (c : Char) (h : nameOk c = true) : isWsChar c = false := by
  unfold nameOk at h
  simp only [Bool.not_eq_true', Bool.or_eq_false_iff] at h
  exact h.1.1.1.1.1.1.1

theorem nameOk_ne (c : Char) (h : nameOk c = true) :
    c ≠ '<' ∧ c ≠ '>' ∧ c ≠ '/' ∧ c ≠ '=' ∧ c ≠ '"' ∧ c ≠ '&' ∧ c ≠ '?' := by
  unfold nameOk at h
  simp only [Bool.not_eq_true', Bool.or_eq_false_iff, decide_eq_false_iff_not] at h
  exact ⟨h.1.1.1.1.1.1.2, h.1.1.1.1.1.2, h.1.1.1.1.2, h.1.1.1.2, h.1.1.2, h.1.2, h.2⟩

theorem takeWhile_cons_all_stop (p : Char → Bool) (x : Char) (xs : List Char)
    (y : Char) (ys : List Char) (hx : p x = true) (hxs : xs.all p = true)
    (hy : p y = false) : (x :: (xs ++ y :: ys)).takeWhile p = x :: xs := by
  simp only [List.takeWhile, hx]
  rw [takeWhile_all_stop p xs y ys hxs hy]

theorem dropWhile_cons_all_stop (p : Char → Bool) (x : Char) (xs : List Char)
    (y : Char) (ys : List Char) (hx : p x = true) (hxs : xs.all p = true)
    (hy : p y = false) : (x :: (xs ++ y :: ys)).dropWhile p = y :: ys := by
  simp only [List.dropWhile, hx]
  exact dropWhile_all_stop p xs y ys hxs hy



theorem jsInsert_fresh (l : List (String × Scalar)) (k : String) (v : Scalar)
    (h : l.any (fun kv => kv.1 = k) = false) : jsInsert l k v = l ++ [(k, v)] := by
  simp [jsInsert, h]

theorem parseAttrs_print (pairs : List (String × String)) :
    ∀ (acc : List (String × Scalar)) (fuel : Nat) (c : Char) (rest : List Char),
    wfRawAttrs pairs = true →
    keysDistinct (pairs.map Prod.fst) = true →
    (pairs.map Prod.fst).all (fun k => !(acc.any (fun kv => kv.1 = k))) = true →
    (c = '/' ∨ c = '>') →
    pairs.length < fuel →
    parseAttrs fuel acc ((rawAttrsText pairs).data ++ c :: rest)
      = some (acc ++ pairs.map (fun p => (p.1, coerceValue ⟨decodeQuot p.2.data⟩)), c :: rest) := by
  induction pairs with
  | nil =>
    intro acc fuel c rest _ _ _ hc hfuel
    match fuel, hfuel with
    | fuel + 1, _ =>
      rcases hc with hc | hc <;> subst hc <;>
        simp [rawAttrsText, parseAttrs, List.dropWhile, isWsChar]
  | cons p rest' ih =>
    intro acc fuel c rest hwf hdist hfresh hc hfuel
    obtain ⟨k, raw⟩ := p
    match fuel, hfuel with
    | fuel + 1, hfuel =>
      simp only [wfRawAttrs, Bool.and_eq_true, Bool.not_eq_true'] at hwf
      obtain ⟨⟨⟨hkne, hkok⟩, hraw⟩, hwf'⟩ := hwf
      obtain ⟨kd⟩ := k
      match kd, hkne with
      | c1 :: kt, _ =>
        simp only [List.all_cons, Bool.and_eq_true] at hkok
        obtain ⟨h1, hktok⟩ := hkok
        have hshape : (rawAttrsText ((⟨c1 :: kt⟩, raw) :: rest')).data ++ c :: rest
            = ' ' :: c1 :: (kt ++ '=' :: '"' ::
                (raw.data ++ '"' :: ((rawAttrsText rest').data ++ c :: rest))) := by
          simp only [rawAttrsText, strData_append, List.append_assoc]
          rfl
        have hdrop : (' ' :: c1 :: (kt ++ '=' :: '"' ::
              (raw.data ++ '"' :: ((rawAttrsText rest').data ++ c :: rest)))).dropWhile
              isWsChar
            = c1 :: (kt ++ '=' :: '"' ::
                (raw.data ++ '"' :: ((rawAttrsText rest').data ++ c :: rest))) := by
          rw [List.dropWhile]
          simp only [show isWsChar ' ' = true from rfl]
          exact dropWhile_not_head _ _ _ (nameOk_not_ws c1 h1)
        have ht : (c1 :: (kt ++ '=' :: '"' ::
              (raw.data ++ '"' :: ((rawAttrsText rest').data ++ c :: rest)))).takeWhile
              nameOk
            = c1 :: kt :=
          takeWhile_cons_all_stop _ _ _ _ _ h1 hktok (by decide)
        have hd : (c1 :: (kt ++ '=' :: '"' ::
              (raw.data ++ '"' :: ((rawAttrsText rest').data ++ c :: rest)))).dropWhile
              nameOk
            = '=' :: '"' :: (raw.data ++ '"' :: ((rawAttrsText rest').data ++ c :: rest)) :=
          dropWhile_cons_all_stop _ _ _ _ _ h1 hktok (by decide)
        have ht2 : (raw.data ++ '"' :: ((rawAttrsText rest').data ++ c :: rest)).takeWhile
              (fun ch => !(ch = '"'))
            = raw.data :=
          takeWhile_all_stop _ _ _ _ hraw (by decide)
        have hd2 : (raw.data ++ '"' :: ((rawAttrsText rest').data ++ c :: rest)).dropWhile
              (fun ch => !(ch = '"'))
            = '"' :: ((rawAttrsText rest').data ++ c :: rest) :=
          dropWhile_all_stop _ _ _ _ hraw (by decide)
        rw [hshape]
        simp only [parseAttrs, hdrop, ht, hd, ht2, hd2]
        split
        · rename_i heq
          exact absurd (List.cons.inj heq).1 (nameOk_ne c1 h1).2.2.1
        · rename_i heq
          exact absurd (List.cons.inj heq).1 (nameOk_ne c1 h1).2.1
        rw [if_neg (by simp [List.isEmpty])]
        simp only [List.map_cons, List.all_cons, Bool.and_eq_true,
          Bool.not_eq_true'] at hfresh
        obtain ⟨hfr1, hfr2⟩ := hfresh
        simp only [List.map_cons, keysDistinct, Bool.and_eq_true,
          Bool.not_eq_true'] at hdist
        obtain ⟨hniq, hdist'⟩ := hdist
        rw [jsInsert_fresh acc (String.mk (c1 :: kt)) _ hfr1]
        have hfresh' : ((List.map Prod.fst rest').all fun k2 =>
            !(acc ++ [(String.mk (c1 :: kt), coerceValue ⟨decodeQuot raw.data⟩)]).any
              fun kv => decide (kv.1 = k2)) = true := by
          rw [List.all_eq_true]
          intro k2 hk2
          simp only [List.any_append, List.any_cons, List.any_nil, Bool.or_false,
            Bool.not_eq_true', Bool.or_eq_false_iff]
          constructor
          · rw [List.all_eq_true] at hfr2
            have := hfr2 k2 hk2
            simpa using this
          · rw [List.any_eq_false] at hniq
            have := hniq k2 hk2
            simp only [decide_eq_true_eq] at this
            simp only [decide_eq_false_iff_not]
            exact fun hcontra => this hcontra.symm
        rw [ih (acc ++ [(String.mk (c1 :: kt), coerceValue ⟨decodeQuot raw.data⟩)]) fuel c rest
          hwf' hdist' hfresh' hc (by simpa using Nat.lt_of_succ_lt_succ hfuel)]
        simp [List.append_assoc]



theorem propsAttrText_raw (props : List (String × Scalar)) :
    propsAttrText props = rawAttrsText (propPairs props) := by
  induction props with
  | nil => rfl
  | cons kv rest ih =>
    obtain ⟨k, v⟩ := kv
    simp only [propPairs, List.map_cons] at *
    simp only [propsAttrText, rawAttrsText, ih]

theorem attrSeg_raw (i nm : String) (props : List (String × Scalar)) :
    " id=\"" ++ i ++ "\" name=\"" ++ nm ++ "\"" ++ propsAttrText props
      = rawAttrsText (("id", i) :: ("name", nm) :: propPairs props) := by
  rw [propsAttrText_raw]
  simp only [rawAttrsText, strAppend_assoc]
  rfl

theorem rawPairs_head (k raw : String) (ps : List (String × String)) :
    (rawAttrsText ((k, raw) :: ps)).data
      = ' ' :: (k.data ++ '=' :: '"' :: (raw.data ++ '"' :: (rawAttrsText ps).data)) := by
  simp only [rawAttrsText, strData_append, List.append_assoc]
  rfl

theorem rawAttrsText_len (ps : List (String × String)) :
    ps.length ≤ (rawAttrsText ps).data.length := by
  induction ps with
  | nil => simp
  | cons p rest ih =>
    obtain ⟨k, raw⟩ := p
    rw [rawPairs_head]
    simp only [List.length_cons, List.length_append]
    omega

theorem nodeToXml_nil_eq (i ty nm : String) (props : List (String × Scalar))
    (ind : String) :
    nodeToXml (.mk i ty nm props .nil) ind
      = ind ++ "<" ++ stripLv ty
          ++ rawAttrsText (("id", i) :: ("name", nm) :: propPairs props) ++ "/>\n" := by
  rw [← attrSeg_raw]
  simp only [nodeToXml, strAppend_assoc]

theorem nodeToXml_cons_eq (i ty nm : String) (props : List (String × Scalar))
    (c : LvglNode) (crest : LvglForest) (ind : String) :
    nodeToXml (.mk i ty nm props (.cons c crest)) ind
      = ind ++ "<" ++ stripLv ty
          ++ rawAttrsText (("id", i) :: ("name", nm) :: propPairs props) ++ ">\n"
          ++ forestToXml (.cons c crest) (ind ++ "  ")
          ++ ind ++ "</" ++ stripLv ty ++ ">\n" := by
  rw [← attrSeg_raw]
  simp only [nodeToXml, strAppend_assoc]

theorem nodeToXml_data_nil (i ty nm : String) (props : List (String × Scalar))
    (ind : String) (rest : List Char) :
    (nodeToXml (.mk i ty nm props .nil) ind).data ++ rest
      = ind.data ++ '<' :: ((stripLv ty).data
          ++ ((rawAttrsText (("id", i) :: ("name", nm) :: propPairs props)).data
              ++ '/' :: '>' :: '\n' :: rest)) := by
  rw [nodeToXml_nil_eq]
  simp only [strData_append, List.append_assoc]
  rfl

theorem nodeToXml_data_cons (i ty nm : String) (props : List (String × Scalar))
    (c : LvglNode) (crest : LvglForest) (ind : String) (rest : List Char) :
    (nodeToXml (.mk i ty nm props (.cons c crest)) ind).data ++ rest
      = ind.data ++ '<' :: ((stripLv ty).data
          ++ ((rawAttrsText (("id", i) :: ("name", nm) :: propPairs props)).data
              ++ '>' :: '\n' :: ((forestToXml (.cons c crest) (ind ++ "  ")).data
                  ++ (ind.data
                      ++ '<' :: '/' :: ((stripLv ty).data ++ '>' :: '\n' :: rest))))) := by
  rw [nodeToXml_cons_eq]
  simp only [strData_append, List.append_assoc]
  rfl


theorem propPairs_fst (props : List (String × Scalar)) :
    (propPairs props).map Prod.fst = props.map Prod.fst := by
  simp [propPairs, List.map_map, Function.comp]

theorem stableIdName_parts (s : String) (h : stableIdName s = true) :
    s.data.all (fun c => !(c = '"')) = true
    ∧ truthy (coerceValue ⟨decodeQuot s.data⟩) = true
    ∧ jsString (coerceValue ⟨decodeQuot s.data⟩) = s := by
  simp only [stableIdName, Bool.and_eq_true, decide_eq_true_eq] at h
  exact ⟨h.1.1, h.1.2, h.2⟩

theorem wfValue_parts (v : Scalar) (h : wfValue v = true) :
    (attrText v).data.all (fun c => !(c = '"')) = true
    ∧ coerceValue ⟨decodeQuot (attrText v).data⟩ = v := by
  simp only [wfValue, Bool.and_eq_true, decide_eq_true_eq] at h
  exact h

theorem wfType_parts (ty : String) (h : wfType ty = true) :
    (stripLv ty).data.isEmpty = false
    ∧ (stripLv ty).data.all nameOk = true
    ∧ (if hasLvHead (stripLv ty).data then stripLv ty else "lv_" ++ stripLv ty) = ty
    ∧ skipTag (stripLv ty) = false := by
  simp only [wfType, Bool.and_eq_true, Bool.not_eq_true', decide_eq_true_eq] at h
  exact ⟨h.1.1.1, h.1.1.2, h.1.2, h.2⟩

theorem wfRawAttrs_props (props : List (String × Scalar))
    (hp : props.all (fun kv => validAttrKey kv.1 && wfValue kv.2) = true) :
    wfRawAttrs (propPairs props) = true := by
  induction props with
  | nil => rfl
  | cons kv rest ih =>
    obtain ⟨k, v⟩ := kv
    simp only [List.all_cons, Bool.and_eq_true] at hp
    obtain ⟨⟨hk, hv⟩, hrest⟩ := hp
    simp only [validAttrKey, Bool.and_eq_true, Bool.not_eq_true'] at hk
    simp only [propPairs, List.map_cons, wfRawAttrs, Bool.and_eq_true,
      Bool.not_eq_true']
    exact ⟨⟨⟨hk.1.1.1, hk.1.1.2⟩, (wfValue_parts v hv).1⟩, ih hrest⟩

theorem wfRawAttrs_ofNode (i nm : String) (props : List (String × Scalar))
    (hi : i.data.all (fun c => !(c = '"')) = true)
    (hnm : nm.data.all (fun c => !(c = '"')) = true)
    (hp : props.all (fun kv => validAttrKey kv.1 && wfValue kv.2) = true) :
    wfRawAttrs (("id", i) :: ("name", nm) :: propPairs props) = true := by
  simp only [wfRawAttrs, Bool.and_eq_true, Bool.not_eq_true']
  exact ⟨⟨⟨by decide, by decide⟩, hi⟩,
    ⟨⟨⟨by decide, by decide⟩, hnm⟩, wfRawAttrs_props props hp⟩⟩

theorem keysDistinct_ofNode (i nm : String) (props : List (String × Scalar))
    (hp : props.all (fun kv => validAttrKey kv.1 && wfValue kv.2) = true)
    (hkd : keysDistinct (props.map Prod.fst) = true) :
    keysDistinct ((("id", i) :: ("name", nm) :: propPairs props).map Prod.fst) = true := by
  simp only [List.map_cons, propPairs_fst, keysDistinct, Bool.and_eq_true,
    Bool.not_eq_true']
  refine ⟨?_, ?_, hkd⟩
  · rw [List.any_eq_false]
    intro k hk
    rcases List.mem_cons.mp hk with h | h
    · subst h; simp
    rw [List.all_eq_true] at hp
    obtain ⟨kv, hkv, hfst⟩ := List.mem_map.mp h
    have := hp kv hkv
    simp only [validAttrKey, Bool.and_eq_true, Bool.not_eq_true',
      decide_eq_false_iff_not] at this
    simp only [decide_eq_true_eq]
    exact fun hcontra => this.1.1.2 (hfst ▸ hcontra)
  · rw [List.any_eq_false]
    intro k hk
    rw [List.all_eq_true] at hp
    obtain ⟨kv, hkv, hfst⟩ := List.mem_map.mp hk
    have := hp kv hkv
    simp only [validAttrKey, Bool.and_eq_true, Bool.not_eq_true',
      decide_eq_false_iff_not] at this
    simp only [decide_eq_true_eq]
    exact fun hcontra => this.1.2 (hfst ▸ hcontra)

theorem pairsMap_coerce (i nm : String) (props : List (String × Scalar)) :
    (("id", i) :: ("name", nm) :: propPairs props).map
        (fun p => (p.1, coerceValue ⟨decodeQuot p.2.data⟩))
      = ("id", coerceValue ⟨decodeQuot i.data⟩)
          :: ("name", coerceValue ⟨decodeQuot nm.data⟩)
          :: props.map (fun kv => (kv.1, coerceValue ⟨decodeQuot (attrText kv.2).data⟩)) := by
  simp [propPairs, List.map_map, Function.comp]

theorem nodeToXml_head (n : LvglNode) (ind : String) (rest : List Char)
    (hn : wfNode n = true) :
    ∃ c0 L, nameOk c0 = true
      ∧ (nodeToXml n ind).data ++ rest = ind.data ++ '<' :: c0 :: L := by
  obtain ⟨i, ty, nm, props, children⟩ := n
  simp only [wfNode, Bool.and_eq_true] at hn
  have hty := wfType_parts ty hn.1.1.1.2
  cases heq : (stripLv ty).data with
  | nil => rw [heq] at hty; exact absurd hty.1 (by decide)
  | cons c0 t1 =>
    have hok : nameOk c0 = true := by
      have := hty.2.1
      rw [heq, List.all_cons, Bool.and_eq_true] at this
      exact this.1
    cases children with
    | nil =>
      have hEq := nodeToXml_data_nil i ty nm props ind rest
      rw [heq] at hEq
      simp only [List.cons_append, List.append_assoc] at hEq
      exact ⟨c0, _, hok, hEq⟩
    | cons c crest =>
      have hEq := nodeToXml_data_cons i ty nm props c crest ind rest
      rw [heq] at hEq
      simp only [List.cons_append, List.append_assoc] at hEq
      exact ⟨c0, _, hok, hEq⟩


theorem rawAttrs_idname_data (i nm : String) (props : List (String × Scalar))
    (X : List Char) :
    (rawAttrsText (("id", i) :: ("name", nm) :: propPairs props)).data ++ X
      = ' ' :: 'i' :: 'd' :: '=' :: '"'
          :: (i.data ++ '"' :: ' ' :: 'n' :: 'a' :: 'm' :: 'e' :: '=' :: '"'
            :: (nm.data ++ '"' :: ((rawAttrsText (propPairs props)).data ++ X))) := by
  simp only [rawAttrsText, strData_append, List.append_assoc, List.cons_append]
  rfl

mutual
theorem parseElem_print (n : LvglNode) : ∀ (ind : String) (rest : List Char) (fuel : Nat),
    wfNode n = true → ind.data.all isWsChar = true →
    ((nodeToXml n ind).data ++ rest).length ≤ fuel →
    parseElem fuel (((nodeToXml n ind).data ++ rest).dropWhile isWsChar)
      = some (elemOfNode n, '\n' :: rest) := by
  obtain ⟨i, ty, nm, props, children⟩ := n
  intro ind rest fuel hn hind hfuel
  simp only [wfNode, Bool.and_eq_true] at hn
  obtain ⟨⟨⟨⟨⟨hi, hnm⟩, hty0⟩, hp⟩, hkd⟩, hch⟩ := hn
  have hty := wfType_parts ty hty0
  cases heq : (stripLv ty).data with
  | nil => rw [heq] at hty; exact absurd hty.1 (by decide)
  | cons c0 t1 =>
  have htOk : (c0 :: t1).all nameOk = true := by rw [← heq]; exact hty.2.1
  simp only [List.all_cons, Bool.and_eq_true] at htOk
  obtain ⟨hc0, ht1⟩ := htOk
  have hTagStr : (String.mk (c0 :: t1)) = stripLv ty := by rw [← heq, strMk_data]
  cases children with
  | nil =>
    have hdata : (nodeToXml (.mk i ty nm props .nil) ind).data ++ rest
        = ind.data ++ '<' :: c0 :: (t1 ++ ' ' :: ('i' :: 'd' :: '=' :: '"'
            :: (i.data ++ '"' :: ' ' :: 'n' :: 'a' :: 'm' :: 'e' :: '=' :: '"'
              :: (nm.data ++ '"'
                :: ((rawAttrsText (propPairs props)).data ++ '/' :: '>' :: '\n' :: rest))))) := by
      rw [nodeToXml_data_nil, rawAttrs_idname_data, heq]
      simp only [List.cons_append, List.append_assoc]
    rw [hdata] at hfuel ⊢
    generalize hR : ('i' :: 'd' :: '=' :: '"'
        :: (i.data ++ '"' :: ' ' :: 'n' :: 'a' :: 'm' :: 'e' :: '=' :: '"'
          :: (nm.data ++ '"'
            :: ((rawAttrsText (propPairs props)).data ++ '/' :: '>' :: '\n' :: rest))))
        = R at hfuel ⊢
    have hback : ' ' :: R
        = (rawAttrsText (("id", i) :: ("name", nm) :: propPairs props)).data
            ++ '/' :: '>' :: '\n' :: rest := by
      rw [← hR]
      exact (rawAttrs_idname_data i nm props _).symm
    cases fuel with
    | zero =>
      exfalso
      simp only [List.length_append, List.length_cons] at hfuel
      omega
    | succ f =>
    rw [dropWhile_append_allP isWsChar ind.data _ hind,
      dropWhile_not_head isWsChar '<' _ (by decide)]
    simp only [parseElem]
    rw [takeWhile_cons_all_stop nameOk c0 t1 ' ' R hc0 ht1 (by decide),
      dropWhile_cons_all_stop nameOk c0 t1 ' ' R hc0 ht1 (by decide)]
    rw [if_neg (by simp)]
    rw [hback]
    rw [parseAttrs_print (("id", i) :: ("name", nm) :: propPairs props) []
      (((rawAttrsText (("id", i) :: ("name", nm) :: propPairs props)).data
          ++ '/' :: '>' :: '\n' :: rest).length + 1)
      '/' ('>' :: '\n' :: rest)
      (wfRawAttrs_ofNode i nm props (stableIdName_parts i hi).1
        (stableIdName_parts nm hnm).1 hp)
      (keysDistinct_ofNode i nm props hp hkd)
      (by simp)
      (Or.inl rfl)
      (by
        have hral := rawAttrsText_len (("id", i) :: ("name", nm) :: propPairs props)
        simp only [List.length_append, List.length_cons] at hral ⊢
        omega)]
    simp only [List.nil_append, pairsMap_coerce, elemOfNode, elemsOfForest, hTagStr]
  | cons c crest =>
    have hdata : (nodeToXml (.mk i ty nm props (.cons c crest)) ind).data ++ rest
        = ind.data ++ '<' :: c0 :: (t1 ++ ' ' :: ('i' :: 'd' :: '=' :: '"'
            :: (i.data ++ '"' :: ' ' :: 'n' :: 'a' :: 'm' :: 'e' :: '=' :: '"'
              :: (nm.data ++ '"'
                :: ((rawAttrsText (propPairs props)).data ++ '>' :: '\n'
                  :: ((forestToXml (.cons c crest) (ind ++ "  ")).data
                    ++ (ind.data ++ '<' :: '/'
                      :: (c0 :: (t1 ++ '>' :: '\n' :: rest))))))))) := by
      rw [nodeToXml_data_cons, rawAttrs_idname_data, heq]
      simp only [List.cons_append, List.append_assoc]
    rw [hdata] at hfuel ⊢
    have hback : ' ' :: ('i' :: 'd' :: '=' :: '"'
          :: (i.data ++ '"' :: ' ' :: 'n' :: 'a' :: 'm' :: 'e' :: '=' :: '"'
            :: (nm.data ++ '"'
              :: ((rawAttrsText (propPairs props)).data ++ '>' :: '\n'
                :: ((forestToXml (.cons c crest) (ind ++ "  ")).data
                  ++ (ind.data ++ '<' :: '/'
                    :: (c0 :: (t1 ++ '>' :: '\n' :: rest))))))))
        = (rawAttrsText (("id", i) :: ("name", nm) :: propPairs props)).data
            ++ '>' :: '\n'
              :: ((forestToXml (.cons c crest) (ind ++ "  ")).data
                ++ (ind.data ++ '<' :: '/' :: (c0 :: (t1 ++ '>' :: '\n' :: rest)))) :=
      (rawAttrs_idname_data i nm props _).symm
    cases fuel with
    | zero =>
      exfalso
      simp only [List.length_append, List.length_cons] at hfuel
      omega
    | succ f =>
    rw [dropWhile_append_allP isWsChar ind.data _ hind,
      dropWhile_not_head isWsChar '<' _ (by decide)]
    simp only [parseElem]
    rw [takeWhile_cons_all_stop nameOk c0 t1 ' ' _ hc0 ht1 (by decide),
      dropWhile_cons_all_stop nameOk c0 t1 ' ' _ hc0 ht1 (by decide)]
    rw [if_neg (by simp)]
    rw [hback]
    rw [parseAttrs_print (("id", i) :: ("name", nm) :: propPairs props) []
      (((rawAttrsText (("id", i) :: ("name", nm) :: propPairs props)).data
          ++ '>' :: '\n'
            :: ((forestToXml (.cons c crest) (ind ++ "  ")).data
              ++ (ind.data ++ '<' :: '/'
                :: (c0 :: (t1 ++ '>' :: '\n' :: rest))))).length + 1)
      '>'
      ('\n' :: ((forestToXml (.cons c crest) (ind ++ "  ")).data
        ++ (ind.data ++ '<' :: '/' :: (c0 :: (t1 ++ '>' :: '\n' :: rest)))))
      (wfRawAttrs_ofNode i nm props (stableIdName_parts i hi).1
        (stableIdName_parts nm hnm).1 hp)
      (keysDistinct_ofNode i nm props hp hkd)
      (by simp)
      (Or.inr rfl)
      (by
        have hral := rawAttrsText_len (("id", i) :: ("name", nm) :: propPairs props)
        simp only [List.length_append, List.length_cons] at hral ⊢
        omega)]
    have hIH := parseElems_print (.cons c crest) (ind ++ "  ") ['\n'] ind.data
      (c0 :: (t1 ++ '>' :: '\n' :: rest)) f hch
      (by
        rw [strData_append, List.all_append, Bool.and_eq_true]
        exact ⟨hind, by decide⟩)
      (by decide) hind
      (by
        simp only [List.length_append, List.length_cons, List.length_nil] at hfuel ⊢
        omega)
    simp only [List.cons_append, List.nil_append] at hIH
    simp only [hIH, List.nil_append,
      takeWhile_cons_all_stop nameOk c0 t1 '>' ('\n' :: rest) hc0 ht1 (by decide),
      dropWhile_cons_all_stop nameOk c0 t1 '>' ('\n' :: rest) hc0 ht1 (by decide),
      pairsMap_coerce, elemOfNode, hTagStr]
    simp
theorem parseElems_print (F : LvglForest) :
    ∀ (ind : String) (pre mid tail : List Char) (fuel : Nat),
    wfForest F = true → ind.data.all isWsChar = true →
    pre.all isWsChar = true → mid.all isWsChar = true →
    (pre ++ ((forestToXml F ind).data ++ (mid ++ '<' :: '/' :: tail))).length < fuel →
    parseElems fuel (pre ++ ((forestToXml F ind).data ++ (mid ++ '<' :: '/' :: tail)))
      = some (elemsOfForest F, '<' :: '/' :: tail) := by
  intro ind pre mid tail fuel hf hind hpre hmid hfuel
  cases fuel with
  | zero => exact absurd hfuel (Nat.not_lt_zero _)
  | succ f =>
  cases F with
  | nil =>
    simp only [parseElems]
    rw [show (forestToXml .nil ind) = "" from rfl]
    rw [show ("" : String).data = ([] : List Char) from rfl, List.nil_append]
    rw [dropWhile_append_allP isWsChar pre _ hpre,
      dropWhile_append_allP isWsChar mid _ hmid,
      dropWhile_not_head isWsChar '<' _ (by decide)]
    rfl
  | cons n frest =>
    simp only [wfForest, Bool.and_eq_true] at hf
    obtain ⟨hn, hfrest⟩ := hf
    obtain ⟨c0, L, hc0, hhead⟩ := nodeToXml_head n ind
      ((forestToXml frest ind).data ++ (mid ++ '<' :: '/' :: tail)) hn
    obtain ⟨c0b, L0, _, hh0⟩ := nodeToXml_head n ind [] hn
    have hnlen : ind.data.length + 2 ≤ (nodeToXml n ind).data.length := by
      have := congrArg List.length hh0
      simp only [List.length_append, List.length_cons, List.length_nil] at this
      omega
    have hsplit : pre ++ ((forestToXml (.cons n frest) ind).data
          ++ (mid ++ '<' :: '/' :: tail))
        = pre ++ ((nodeToXml n ind).data
            ++ ((forestToXml frest ind).data ++ (mid ++ '<' :: '/' :: tail))) := by
      simp only [forestToXml, strData_append, List.append_assoc]
    rw [hsplit] at hfuel ⊢
    have hIH1 := parseElem_print n ind
      ((forestToXml frest ind).data ++ (mid ++ '<' :: '/' :: tail)) f hn hind
      (by
        simp only [List.length_append] at hfuel ⊢
        omega)
    rw [hhead] at hIH1
    rw [dropWhile_append_allP isWsChar ind.data _ hind,
      dropWhile_not_head isWsChar '<' _ (by decide)] at hIH1
    have hIH2 := parseElems_print frest ind ['\n'] mid tail f hfrest hind
      (by decide) hmid
      (by
        have hlen2 := congrArg List.length hhead
        have hn2 := hnlen
        simp only [List.length_append, List.length_cons, List.length_nil]
          at hfuel hlen2 hn2 ⊢
        omega)
    simp only [List.cons_append, List.nil_append] at hIH2
    simp only [parseElems]
    rw [dropWhile_append_allP isWsChar pre _ hpre, hhead,
      dropWhile_append_allP isWsChar ind.data _ hind,
      dropWhile_not_head isWsChar '<' _ (by decide)]
    split
    · rename_i heq2
      exact absurd heq2 (by simp)
    · rename_i heq2
      have h2 := (List.cons.inj heq2).2
      exact absurd (List.cons.inj h2).1 (nameOk_ne c0 hc0).2.2.1
    · simp only [hIH1, hIH2]
      rfl
    · rename_i hx1 hx2 heq2
      exact absurd (List.cons.inj heq2).1.symm hx2
end

theorem find_id (vi vnm : Scalar) (rest : List (String × Scalar)) :
    ((("id", vi) :: ("name", vnm) :: rest).find? (fun kv => kv.1 = "id"))
      = some ("id", vi) := by
  simp [List.find?]

theorem find_name (vi vnm : Scalar) (rest : List (String × Scalar)) :
    ((("id", vi) :: ("name", vnm) :: rest).find? (fun kv => kv.1 = "name"))
      = some ("name", vnm) := by
  simp [List.find?]

theorem map_coerce_id (props : List (String × Scalar))
    (hp : props.all (fun kv => validAttrKey kv.1 && wfValue kv.2) = true) :
    (props.map (fun kv => (kv.1, coerceValue ⟨decodeQuot (attrText kv.2).data⟩))).filter
        (fun kv => !(kv.1 = "id" || kv.1 = "name"))
      = props := by
  induction props with
  | nil => rfl
  | cons kv rest ih =>
    obtain ⟨k, v⟩ := kv
    simp only [List.all_cons, Bool.and_eq_true] at hp
    obtain ⟨⟨hk, hv⟩, hrest⟩ := hp
    simp only [validAttrKey, Bool.and_eq_true, Bool.not_eq_true',
      decide_eq_false_iff_not] at hk
    simp only [List.map_cons, List.filter_cons]
    rw [if_pos (by
      simp only [Bool.not_eq_true', Bool.or_eq_false_iff, decide_eq_false_iff_not]
      exact ⟨hk.1.2, hk.2⟩)]
    rw [(wfValue_parts v hv).2, ih hrest]

theorem filter_props (vi vnm : Scalar) (props : List (String × Scalar))
    (hp : props.all (fun kv => validAttrKey kv.1 && wfValue kv.2) = true) :
    ((("id", vi) :: ("name", vnm)
        :: props.map (fun kv => (kv.1, coerceValue ⟨decodeQuot (attrText kv.2).data⟩))).filter
          (fun kv => !(kv.1 = "id" || kv.1 = "name")))
      = props := by
  simp only [List.filter_cons]
  rw [if_neg (by simp), if_neg (by simp)]
  exact map_coerce_id props hp

mutual
theorem parseNodeM_elem (n : LvglNode) : ∀ (supply : Nat), wfNode n = true →
    parseNodeM (elemOfNode n) supply = (n, supply) := by
  obtain ⟨i, ty, nm, props, children⟩ := n
  intro supply hn
  simp only [wfNode, Bool.and_eq_true] at hn
  obtain ⟨⟨⟨⟨⟨hi, hnm⟩, hty0⟩, hp⟩, hkd⟩, hch⟩ := hn
  have hIH := parseNodesM_elems children supply hch
  simp only [elemOfNode, parseNodeM, find_id, find_name, Option.map_some']
  rw [if_pos (stableIdName_parts i hi).2.1, if_pos (stableIdName_parts nm hnm).2.1]
  rw [(stableIdName_parts i hi).2.2, (stableIdName_parts nm hnm).2.2]
  rw [filter_props _ _ props hp, hIH]
  rw [(wfType_parts ty hty0).2.2.1]
theorem parseNodesM_elems (F : LvglForest) : ∀ (supply : Nat), wfForest F = true →
    parseNodesM (elemsOfForest F) supply = (F, supply) := by
  intro supply hf
  cases F with
  | nil => rfl
  | cons n frest =>
    simp only [wfForest, Bool.and_eq_true] at hf
    obtain ⟨hn, hfrest⟩ := hf
    have hty := wfType_parts n.type (by
      obtain ⟨i, ty, nm, props, children⟩ := n
      simp only [wfNode, Bool.and_eq_true] at hn
      exact hn.1.1.1.2)
    simp only [elemsOfForest, parseNodesM]
    rw [if_neg (by
      obtain ⟨i, ty, nm, props, children⟩ := n
      simp only [elemOfNode, RawElem.tag]
      simp only [wfNode, Bool.and_eq_true] at hn
      rw [(wfType_parts ty hn.1.1.1.2).2.2.2]
      simp)]
    rw [parseNodeM_elem n supply hn, parseNodesM_elems frest supply hfrest]
end

theorem skipDeclTail_clean (pre : List Char) :
    ∀ (rest : List Char) (fuel : Nat), pre.all (fun c => !(c = '?')) = true →
    pre.length < fuel →
    skipDeclTail fuel (pre ++ '?' :: '>' :: rest) = some rest := by
  induction pre with
  | nil =>
    intro rest fuel _ hfuel
    cases fuel with
    | zero => exact absurd hfuel (Nat.not_lt_zero _)
    | succ f => simp [skipDeclTail]
  | cons c pre' ih =>
    intro rest fuel hall hfuel
    cases fuel with
    | zero => exact absurd hfuel (Nat.not_lt_zero _)
    | succ f =>
    simp only [List.all_cons, Bool.and_eq_true, Bool.not_eq_true',
      decide_eq_false_iff_not] at hall
    simp only [List.cons_append, skipDeclTail]
    split
    · rename_i heq
      exact absurd (List.cons.inj heq).1 hall.1
    · rename_i heq
      rw [← (List.cons.inj heq).2]
      exact ih rest f hall.2 (by simp at hfuel; omega)
    · rename_i heq
      exact absurd heq (by simp)

theorem parseTop_nl (fuel : Nat) (h : 0 < fuel) :
    parseTopElems fuel ['\n'] = some .nil := by
  cases fuel with
  | zero => exact absurd h (by omega)
  | succ f => simp [parseTopElems, List.dropWhile, isWsChar]

theorem parseTop_wrap (F : LvglForest) (hf : wfForest F = true) :
    ∀ fuel : Nat,
    ('\n' :: '<' :: 'l' :: (['v','g','l'] ++ ' '
        :: 'v' :: 'e' :: 'r' :: 's' :: 'i' :: 'o' :: 'n' :: '=' :: '"'
        :: '1' :: '.' :: '0' :: '"' :: '>' :: '\n'
        :: ((forestToXml F "  ").data
          ++ '<' :: '/' :: ('l' :: (['v','g','l'] ++ '>' :: '\n' :: []))))).length < fuel →
    parseTopElems fuel
      ('\n' :: '<' :: 'l' :: (['v','g','l'] ++ ' '
        :: 'v' :: 'e' :: 'r' :: 's' :: 'i' :: 'o' :: 'n' :: '=' :: '"'
        :: '1' :: '.' :: '0' :: '"' :: '>' :: '\n'
        :: ((forestToXml F "  ").data
          ++ '<' :: '/' :: ('l' :: (['v','g','l'] ++ '>' :: '\n' :: [])))))
      = some (.cons (.mk "lvgl" [("version", Scalar.str "1.0")] (elemsOfForest F)) .nil) := by
  intro fuel hfuel
  cases fuel with
  | zero => exact absurd hfuel (Nat.not_lt_zero _)
  | succ f =>
  have hdw : List.dropWhile isWsChar
      ('\n' :: '<' :: 'l' :: (['v','g','l'] ++ ' '
        :: 'v' :: 'e' :: 'r' :: 's' :: 'i' :: 'o' :: 'n' :: '=' :: '"'
        :: '1' :: '.' :: '0' :: '"' :: '>' :: '\n'
        :: ((forestToXml F "  ").data
          ++ '<' :: '/' :: ('l' :: (['v','g','l'] ++ '>' :: '\n' :: [])))))
      = '<' :: 'l' :: (['v','g','l'] ++ ' '
        :: 'v' :: 'e' :: 'r' :: 's' :: 'i' :: 'o' :: 'n' :: '=' :: '"'
        :: '1' :: '.' :: '0' :: '"' :: '>' :: '\n'
        :: ((forestToXml F "  ").data
          ++ '<' :: '/' :: ('l' :: (['v','g','l'] ++ '>' :: '\n' :: [])))) := by
    simp [List.dropWhile, isWsChar]
  simp only [parseTopElems, hdw]
  simp only [parseElem]
  rw [takeWhile_cons_all_stop nameOk 'l' ['v','g','l'] ' '
      ('v' :: 'e' :: 'r' :: 's' :: 'i' :: 'o' :: 'n' :: '=' :: '"'
        :: '1' :: '.' :: '0' :: '"' :: '>' :: '\n'
        :: ((forestToXml F "  ").data
          ++ '<' :: '/' :: ('l' :: (['v','g','l'] ++ '>' :: '\n' :: []))))
      (by decide) (by decide) (by decide),
    dropWhile_cons_all_stop nameOk 'l' ['v','g','l'] ' '
      ('v' :: 'e' :: 'r' :: 's' :: 'i' :: 'o' :: 'n' :: '=' :: '"'
        :: '1' :: '.' :: '0' :: '"' :: '>' :: '\n'
        :: ((forestToXml F "  ").data
          ++ '<' :: '/' :: ('l' :: (['v','g','l'] ++ '>' :: '\n' :: []))))
      (by decide) (by decide) (by decide)]
  rw [if_neg (by simp)]
  rw [show (' ' :: 'v' :: 'e' :: 'r' :: 's' :: 'i' :: 'o' :: 'n' :: '=' :: '"'
        :: '1' :: '.' :: '0' :: '"' :: '>' :: '\n'
        :: ((forestToXml F "  ").data
          ++ '<' :: '/' :: ('l' :: (['v','g','l'] ++ '>' :: '\n' :: []))))
      = (rawAttrsText [("version", "1.0")]).data
          ++ '>' :: ('\n' :: ((forestToXml F "  ").data
            ++ '<' :: '/' :: ('l' :: (['v','g','l'] ++ '>' :: '\n' :: [])))) from rfl]
  rw [parseAttrs_print [("version", "1.0")] [] _ '>'
    ('\n' :: ((forestToXml F "  ").data
      ++ '<' :: '/' :: ('l' :: (['v','g','l'] ++ '>' :: '\n' :: []))))
    (by decide) (by decide) (by simp) (Or.inr rfl)
    (by simp [List.length_append])]
  have hIH := parseElems_print F "  " ['\n'] []
    ('l' :: (['v','g','l'] ++ '>' :: '\n' :: []))
    ('<' :: 'l' :: (['v','g','l']
      ++ ((rawAttrsText [("version", "1.0")]).data
        ++ '>' :: '\n' :: ((forestToXml F "  ").data
          ++ '<' :: '/' :: ('l' :: (['v','g','l'] ++ '>' :: '\n' :: [])))))).length
    hf (by decide) (by decide) (by decide)
    (by simp [List.length_append]; omega)
  have hIH2 : parseElems
      ('<' :: 'l' :: (['v','g','l']
        ++ ((rawAttrsText [("version", "1.0")]).data
          ++ '>' :: '\n' :: ((forestToXml F "  ").data
            ++ '<' :: '/' :: ('l' :: (['v','g','l'] ++ '>' :: '\n' :: [])))))).length
      ('\n' :: ((forestToXml F "  ").data
        ++ '<' :: '/' :: ('l' :: (['v','g','l'] ++ '>' :: '\n' :: []))))
      = some (elemsOfForest F,
          '<' :: '/' :: ('l' :: (['v','g','l'] ++ '>' :: '\n' :: []))) := hIH
  split
  · rename_i heq
    exact absurd heq (by simp)
  · rename_i r heq
    have h2 := (List.cons.inj heq).2
    exact absurd (List.cons.inj h2).1 (by decide)
  · rename_i r heq
    have h2 := (List.cons.inj heq).2
    exact absurd (List.cons.inj h2).1 (by decide)
  · simp only [hIH2]
    rw [takeWhile_cons_all_stop nameOk 'l' ['v','g','l'] '>' ('\n' :: [])
        (by decide) (by decide) (by decide),
      dropWhile_cons_all_stop nameOk 'l' ['v','g','l'] '>' ('\n' :: [])
        (by decide) (by decide) (by decide)]
    rw [if_pos rfl]
    simp only [parseTop_nl f (by
      simp only [List.length_cons, List.length_append] at hfuel
      omega)]
    rfl
  · rename_i hx1 hx2 hx3 heq
    exact (hx3 (List.cons.inj heq).1.symm).elim

theorem parseTop_doc (F : LvglForest) (hf : wfForest F = true) :
    ∀ fuel : Nat, (nodesToXml F).data.length < fuel →
    parseTopElems fuel (nodesToXml F).data
      = some (.cons (.mk "lvgl" [("version", Scalar.str "1.0")] (elemsOfForest F)) .nil) := by
  intro fuel hfuel
  have hdoc : (nodesToXml F).data
      = '<' :: '?' :: ("xml version=\"1.0\" encoding=\"UTF-8\"".data
          ++ '?' :: '>' :: ('\n' :: '<' :: 'l' :: (['v','g','l'] ++ ' '
            :: 'v' :: 'e' :: 'r' :: 's' :: 'i' :: 'o' :: 'n' :: '=' :: '"'
            :: '1' :: '.' :: '0' :: '"' :: '>' :: '\n'
            :: ((forestToXml F "  ").data
              ++ '<' :: '/' :: ('l' :: (['v','g','l'] ++ '>' :: '\n' :: [])))))) := by
    simp only [nodesToXml, strData_append, List.append_assoc, List.cons_append]
    rfl
  rw [hdoc] at hfuel ⊢
  cases fuel with
  | zero => exact absurd hfuel (Nat.not_lt_zero _)
  | succ f =>
  have hdw2 : List.dropWhile isWsChar
      ('<' :: '?' :: ("xml version=\"1.0\" encoding=\"UTF-8\"".data
        ++ '?' :: '>' :: ('\n' :: '<' :: 'l' :: (['v','g','l'] ++ ' '
            :: 'v' :: 'e' :: 'r' :: 's' :: 'i' :: 'o' :: 'n' :: '=' :: '"'
            :: '1' :: '.' :: '0' :: '"' :: '>' :: '\n'
            :: ((forestToXml F "  ").data
              ++ '<' :: '/' :: ('l' :: (['v','g','l'] ++ '>' :: '\n' :: [])))))))
      = '<' :: '?' :: ("xml version=\"1.0\" encoding=\"UTF-8\"".data
        ++ '?' :: '>' :: ('\n' :: '<' :: 'l' :: (['v','g','l'] ++ ' '
            :: 'v' :: 'e' :: 'r' :: 's' :: 'i' :: 'o' :: 'n' :: '=' :: '"'
            :: '1' :: '.' :: '0' :: '"' :: '>' :: '\n'
            :: ((forestToXml F "  ").data
              ++ '<' :: '/' :: ('l' :: (['v','g','l'] ++ '>' :: '\n' :: [])))))) :=
    dropWhile_not_head _ _ _ (by decide)
  simp only [parseTopElems, hdw2]
  rw [skipDeclTail_clean "xml version=\"1.0\" encoding=\"UTF-8\"".data _ _
    (by decide) (by simp [List.length_append])]
  exact parseTop_wrap F hf f (by
    simp only [List.length_cons, List.length_append] at hfuel ⊢
    omega)

theorem roundtrip_wf (F : LvglForest) (hf : wfForest F = true) (supply : Nat) :
    parseXmlToNodes (nodesToXml F) supply = F := by
  unfold parseXmlToNodes
  rw [show xmlParseDoc (nodesToXml F).data
      = some (.cons (.mk "lvgl" [("version", Scalar.str "1.0")] (elemsOfForest F)) .nil)
    from parseTop_doc F hf _ (Nat.lt_succ_self _)]
  simp only [findLvgl, RawElem.tag, if_true, RawElem.childElems]
  rw [parseNodesM_elems F supply hf]

set_option maxRecDepth 16000 in
/-- C1: the unrestricted claim fails.  The markup
`<lvgl version="1.0"><lv_ id="a" name="n"/></lvgl>` is readable, so the parser
produces a one-node forest (of type `lv_`); serializing that forest writes the
empty tag `<` + `` (the `lv_` prefix is stripped away entirely), which does not
parse back, so reparsing yields the empty forest rather than the original. -/
theorem c1_roundtrip_cex :
    (parseXmlToNodes "<lvgl version=\"1.0\"><lv_ id=\"a\" name=\"n\"/></lvgl>" 0).length = 1
    ∧ (parseXmlToNodes (nodesToXml
        (parseXmlToNodes "<lvgl version=\"1.0\"><lv_ id=\"a\" name=\"n\"/></lvgl>" 0)) 0).length
      = 0 := by
  constructor
  · decide
  · decide

/-- C1 (amended): for every well-formed forest (ids, names, types, property
keys and values that survive one serialize step, as captured by the decidable
predicate `wfForest`), parsing the serialization returns the forest exactly, for
every fresh-id supply — no id is regenerated, because well-formed ids are
truthy and are therefore taken from the markup verbatim. -/
theorem c1_roundtrip (F : LvglForest) (hf : wfForest F = true) (supply : Nat) :
    parseXmlToNodes (nodesToXml F) supply = F :=
  roundtrip_wf F hf supply

set_option maxRecDepth 16000 in
/-- Concrete instantiation of the amended C1 theorem. -/
theorem c1_roundtrip_witness :
    wfForest (LvglForest.cons
        (LvglNode.mk "id1" "lv_label" "mylabel" [("text", Scalar.str "hi")]
          LvglForest.nil) LvglForest.nil) = true
    ∧ parseXmlToNodes (nodesToXml (LvglForest.cons
        (LvglNode.mk "id1" "lv_label" "mylabel" [("text", Scalar.str "hi")]
          LvglForest.nil) LvglForest.nil)) 7
      = LvglForest.cons
          (LvglNode.mk "id1" "lv_label" "mylabel" [("text", Scalar.str "hi")]
            LvglForest.nil) LvglForest.nil :=
  ⟨by decide, c1_roundtrip _ (by decide) 7⟩

set_option maxRecDepth 16000 in
/-- C3: the unrestricted claim fails.  For the one-node forest of type `lv_`
the serialization writes an empty tag, the reparse yields the empty forest, and
serializing again produces the bare wrapper document, not the original text. -/
theorem c3_serialize_idem_cex :
    nodesToXml (parseXmlToNodes (nodesToXml (LvglForest.cons
        (LvglNode.mk "a" "lv_" "lv_" [] LvglForest.nil) LvglForest.nil)) 0)
      ≠ nodesToXml (LvglForest.cons
        (LvglNode.mk "a" "lv_" "lv_" [] LvglForest.nil) LvglForest.nil) := by
  decide

/-- C3 (amended): on well-formed forests, serialize–parse–serialize equals
serialize, for every fresh-id supply (an immediate consequence of the amended
round-trip law). -/
theorem c3_serialize_idem (F : LvglForest) (hf : wfForest F = true) (supply : Nat) :
    nodesToXml (parseXmlToNodes (nodesToXml F) supply) = nodesToXml F :=
  congrArg nodesToXml (roundtrip_wf F hf supply)

set_option maxRecDepth 16000 in
/-- Concrete instantiation of the amended C3 theorem. -/
theorem c3_serialize_idem_witness :
    wfForest (LvglForest.cons (LvglNode.mk "b2" "lv_btn" "mybtn" [] LvglForest.nil)
        LvglForest.nil) = true
    ∧ nodesToXml (parseXmlToNodes (nodesToXml (LvglForest.cons
        (LvglNode.mk "b2" "lv_btn" "mybtn" [] LvglForest.nil) LvglForest.nil)) 3)
      = nodesToXml (LvglForest.cons
        (LvglNode.mk "b2" "lv_btn" "mybtn" [] LvglForest.nil) LvglForest.nil) :=
  ⟨by decide, c3_serialize_idem _ (by decide) 3⟩


end LvglCodeGen
